import Mathlib

/-!
# Verification of the GreenWashing ESG claim-verification pipeline

A shallow embedding in Lean 4 of the core pipeline of the GreenWashing
repository (`python_backend/`): claim classification (`claim_classifier.py`,
`huggingface_classifier.py`), fact extraction and ESG verification
(`esg_verifier.py`), the orchestrator's claim accounting (`nlp_processor.py`)
and summary statistics (`results_formatter.py`).

Python floats are modelled as exact rationals (`ℚ`) where the code only
compares and averages them, and as reals (`ℝ`) where the softmax
(`torch.softmax`) is involved.  External collaborators (the BERT model, the
Hugging Face inference API, the Gemini reasoning service, `json.loads`) are
parameters of the embedded functions; the repository's own logic is embedded
faithfully.
-/

/- ## String helpers mirroring the Python primitives used by the backend -/

/-- Helper for `pyWords`: scan the characters, accumulating the current word
in reverse. -/
def pyWordsAux : List Char → List Char → List String
  | [], acc => if acc.isEmpty then [] else [String.mk acc.reverse]
  | c :: cs, acc =>
    if c.isWhitespace then
      if acc.isEmpty then pyWordsAux cs []
      else String.mk acc.reverse :: pyWordsAux cs []
    else pyWordsAux cs (c :: acc)

/-- Python `str.split()` with no argument: split on whitespace runs, dropping
empty pieces. -/
def pyWords (cs : List Char) : List String :=
  pyWordsAux cs []

/-- Python `' '.join(words)`. -/
def joinWords : List String → String
  | [] => ""
  | [w] => w
  | w :: ws => w ++ " " ++ joinWords ws

/-- `True` iff `not s.strip()` holds in Python, i.e. every character of `s`
is whitespace (this includes the empty string). -/
def isBlank (s : String) : Bool :=
  s.data.all (·.isWhitespace)

/-- Python `str.strip()`: drop whitespace from both ends. -/
def pyStripChars (cs : List Char) : List Char :=
  ((cs.dropWhile (·.isWhitespace)).reverse.dropWhile (·.isWhitespace)).reverse

/-- Python `str.strip()` lifted to `String`. -/
def pyStrip (s : String) : String :=
  String.mk (pyStripChars s.data)

/-- Python `str.lower()` (character-wise, as for the ASCII data this system
handles). -/
def pyLower (s : String) : String :=
  String.mk (s.data.map Char.toLower)

/-- Python `needle in hay` for strings: contiguous substring containment. -/
def containsSub (hay needle : String) : Bool :=
  decide (needle.data <:+: hay.data)

/- ## Configuration constants (`config.py`) -/

/-- `config.CONFIDENCE_THRESHOLD = 0.7`. -/
def CONFIDENCE_THRESHOLD : ℚ := 7/10

/-- `config.MAX_SENTENCE_LENGTH = 512`. -/
def MAX_SENTENCE_LENGTH : Nat := 512

/-- `config.BATCH_SIZE = 16`. -/
def BATCH_SIZE : Nat := 16

/- ## Data model: classification results (`claim_classifier.py`) -/

/-- The result dictionary produced by the classifiers: `{text, prediction,
confidence, is_claim, raw_scores}`, plus the optional `error` key that the
Hugging Face classifier adds on a failed request.  The score type is a
parameter: `ℝ` for the softmax-based local model, `ℚ` elsewhere. -/
structure ClassificationResult (α : Type) where
  text : String
  prediction : String
  confidence : α
  is_claim : Bool
  raw_scores : List α
  error : Option String := none

instance {α} [DecidableEq α] : DecidableEq (ClassificationResult α) := by
  intro a b
  cases a; cases b
  simp only [ClassificationResult.mk.injEq]
  exact inferInstance

/-- `ClaimClassifier._preprocess_sentence`: return `""` for blank input,
otherwise collapse whitespace runs to single spaces and truncate to
`MAX_SENTENCE_LENGTH * 4` characters. -/
def preprocessSentence (s : String) : String :=
  if isBlank s then ""
  else
    let w := joinWords (pyWords s.data)
    if w.length > MAX_SENTENCE_LENGTH * 4 then String.mk (w.data.take (MAX_SENTENCE_LENGTH * 4))
    else w

/-- `ClaimClassifier.filter_claims` (identical logic in
`HuggingFaceClaimClassifier.filter_claims`): keep results with
`is_claim and confidence >= threshold`, the threshold defaulting to the
class-level `confidence_threshold` when `min_confidence is None`. -/
def filterClaims {α : Type} [LinearOrder α] (confidenceThreshold : α)
    (classificationResults : List (ClassificationResult α))
    (minConfidence : Option α) : List (ClassificationResult α) :=
  let threshold := minConfidence.getD confidenceThreshold
  classificationResults.filter (fun r => r.is_claim && decide (threshold ≤ r.confidence))

/- ## C8 support lemmas -/

/-- Filtering with a pointwise-weaker predicate yields a sublist of filtering
with the stronger one. -/
theorem filter_sublist_filter_of_imp {α : Type} (p q : α → Bool) (l : List α)
    (h : ∀ a, p a = true → q a = true) : List.Sublist (l.filter p) (l.filter q) := by
  induction l with
  | nil => simp
  | cons x xs ih =>
    by_cases hp : p x = true
    · have hq := h x hp
      simpa [List.filter_cons, hp, hq] using ih.cons₂ x
    · have hp' : p x = false := by revert hp; cases p x <;> simp
      by_cases hq : q x = true
      · simpa [List.filter_cons, hp', hq] using ih.cons x
      · have hq' : q x = false := by revert hq; cases q x <;> simp
        simpa [List.filter_cons, hp', hq'] using ih

/-- C8: `filterClaims` returns a sublist (hence subset) of its input in which
every element has `is_claim = true` and confidence at least the requested
threshold; when no override is given the class-level threshold
`CONFIDENCE_THRESHOLD = 0.7` is used; and raising the threshold never
enlarges the returned list. -/
theorem filterClaims_spec (results : List (ClassificationResult ℚ)) (t t' : ℚ) :
    List.Sublist (filterClaims CONFIDENCE_THRESHOLD results (some t)) results ∧
    (∀ r ∈ filterClaims CONFIDENCE_THRESHOLD results (some t),
      r.is_claim = true ∧ t ≤ r.confidence) ∧
    filterClaims CONFIDENCE_THRESHOLD results none
      = filterClaims CONFIDENCE_THRESHOLD results (some CONFIDENCE_THRESHOLD) ∧
    (t ≤ t' →
      (filterClaims CONFIDENCE_THRESHOLD results (some t')).length
        ≤ (filterClaims CONFIDENCE_THRESHOLD results (some t)).length) := by
  refine ⟨List.filter_sublist results, ?_, rfl, ?_⟩
  · intro r hr
    have h := List.of_mem_filter hr
    simp only [Bool.and_eq_true, decide_eq_true_eq] at h
    exact ⟨h.1, h.2⟩
  · intro htt
    refine List.Sublist.length_le ?_
    refine filter_sublist_filter_of_imp _ _ _ ?_
    intro r hr
    simp only [Bool.and_eq_true, decide_eq_true_eq] at hr ⊢
    exact ⟨hr.1, le_trans htt hr.2⟩

/-- Witness for `filterClaims_spec`: instantiates the monotonicity hypothesis
`t ≤ t'` at `t = 1/2`, `t' = 3/4` on a concrete result list. -/
theorem filterClaims_spec_witness :
    ((1 : ℚ)/2 ≤ 3/4) ∧
    (filterClaims CONFIDENCE_THRESHOLD
        [{ text := "We cut emissions by 20% in 2023", prediction := "Claim",
           confidence := 9/10, is_claim := true, raw_scores := [1/10, 9/10] }]
        (some (3/4))).length
      ≤ (filterClaims CONFIDENCE_THRESHOLD
        [{ text := "We cut emissions by 20% in 2023", prediction := "Claim",
           confidence := 9/10, is_claim := true, raw_scores := [1/10, 9/10] }]
        (some (1/2))).length :=
  ⟨by norm_num,
    (filterClaims_spec
      [{ text := "We cut emissions by 20% in 2023", prediction := "Claim",
         confidence := 9/10, is_claim := true, raw_scores := [1/10, 9/10] }]
      (1/2) (3/4)).2.2.2 (by norm_num)⟩

/- ## The local model classifier: `ClaimClassifier` (`claim_classifier.py`)

The trained model is external: it is a parameter mapping each (cleaned)
sentence to a pair of logits.  `torch.softmax` over the two logit entries is
embedded as `softmax2` over `ℝ`.  A batched inference call that may raise is
modelled as a function into `Except`. -/

/-- Two-class softmax, as applied by `torch.softmax(logits, dim=-1)` to one
row of logits. -/
noncomputable def softmax2 (z : ℝ × ℝ) : ℝ × ℝ :=
  (Real.exp z.1 / (Real.exp z.1 + Real.exp z.2),
   Real.exp z.2 / (Real.exp z.1 + Real.exp z.2))

/-- Build the result dictionary from a probability row: `predicted_class =
argmax`, `confidence = probabilities[predicted_class]`, `prediction` the
human-readable label (class 1 = Claim), `raw_scores` both probabilities. -/
noncomputable def mkResultFromProbs (sentence : String) (p : ℝ × ℝ) :
    ClassificationResult ℝ :=
  if p.1 < p.2 then
    { text := sentence, prediction := "Claim", confidence := p.2,
      is_claim := true, raw_scores := [p.1, p.2] }
  else
    { text := sentence, prediction := "Non-Claim", confidence := p.1,
      is_claim := false, raw_scores := [p.1, p.2] }

/-- The per-sentence default that `_process_batch` pre-fills for every slot
(`Non-Claim`, confidence `0.0`, raw scores `[1.0, 0.0]`); it survives for
empty/whitespace-only sentences, which are never sent to the model. -/
def defaultBatchResult (sentence : String) : ClassificationResult ℝ :=
  { text := sentence, prediction := "Non-Claim", confidence := 0,
    is_claim := false, raw_scores := [1, 0] }

/-- `ClaimClassifier._process_batch`: preprocess all sentences, keep the
non-empty cleaned ones together with their original indices, pre-fill default
results for every slot, run the model once over the valid sentences (a call
that may raise, hence `Except`), softmax each returned logit row and write the
result back at the original index. -/
noncomputable def processBatchE
    (infer : List String → Except String (List (ℝ × ℝ)))
    (batchSentences : List String) :
    Except String (List (ClassificationResult ℝ)) :=
  let cleaned := batchSentences.map preprocessSentence
  let validSentences := cleaned.filter (· != "")
  let validIndices := (List.range batchSentences.length).filter
    (fun i => cleaned.getD i "" != "")
  let batchResults := batchSentences.map defaultBatchResult
  if validSentences.isEmpty then .ok batchResults
  else
    match infer validSentences with
    | .error e => .error e
    | .ok logitRows =>
      .ok ((validIndices.zip (logitRows.map softmax2)).foldl
        (fun acc iz => acc.set iz.1 (mkResultFromProbs (batchSentences.getD iz.1 "") iz.2))
        batchResults)

/-- Helper for `chunkList`: structural recursion on a fuel counter that is
initialised to the list length; every step drops at least one element, so the
fuel never runs out when it starts at the length. -/
def chunkListAux {α : Type} (batchSize : Nat) : Nat → List α → List (List α)
  | _, [] => []
  | 0, _ :: _ => []
  | fuel + 1, c :: cs =>
    (c :: cs).take batchSize :: chunkListAux batchSize fuel ((c :: cs).drop (max batchSize 1))

/-- The grouping `sentences[i:i + BATCH_SIZE]` for `i in range(0, n,
batch_size)`.  (Python raises for a zero step; the `max … 1` only guards that
degenerate case and coincides with `batchSize` whenever `0 < batchSize`.) -/
def chunkList {α : Type} (batchSize : Nat) (l : List α) : List (List α) :=
  chunkListAux batchSize l.length l

/-- The loop body of `batch_classify`: process each chunk in order and
concatenate, an exception from any chunk propagating out. -/
noncomputable def runBatches (infer : List String → Except String (List (ℝ × ℝ))) :
    List (List String) → Except String (List (ClassificationResult ℝ))
  | [] => .ok []
  | b :: bs =>
    match processBatchE infer b with
    | .error e => .error e
    | .ok r =>
      match runBatches infer bs with
      | .error e => .error e
      | .ok rest => .ok (r ++ rest)

/-- `ClaimClassifier.batch_classify`: return `[]` for an empty input,
otherwise process the input in chunks; an exception from any chunk is
re-raised as an `ESGProcessingError` wrapping the message, aborting the whole
pass. -/
noncomputable def batchClassifyE
    (infer : List String → Except String (List (ℝ × ℝ)))
    (batchSize : Nat) (sentences : List String) :
    Except String (List (ClassificationResult ℝ)) :=
  if sentences.isEmpty then .ok []
  else
    match runBatches infer (chunkList batchSize sentences) with
    | .ok results => .ok results
    | .error e => .error ("Batch classification failed: " ++ e)

/- ## C1: one result per input, in order; blank inputs short-circuit -/

/-- What `_process_batch` guarantees for the slot at index `i`: the result
echoes the input sentence, and a blank input keeps the deterministic default
(which mentions neither the model nor its output). -/
def slotOk (batch : List String) (i : Nat) (r : ClassificationResult ℝ) : Prop :=
  r.text = (batch[i]?).getD "" ∧
  (isBlank ((batch[i]?).getD "") = true → r = defaultBatchResult ((batch[i]?).getD ""))

/-- The result list of a batch: same length as the input, every slot `slotOk`. -/
def resOk (batch : List String) (res : List (ClassificationResult ℝ)) : Prop :=
  res.length = batch.length ∧
  ∀ i (hi : i < res.length), slotOk batch i (res.get ⟨i, hi⟩)

theorem foldl_set_length {β γ : Type _} (g : Nat × γ → β)
    (pairs : List (Nat × γ)) (init : List β) :
    (pairs.foldl (fun acc p => acc.set p.1 (g p)) init).length = init.length := by
  induction pairs generalizing init with
  | nil => rfl
  | cons p ps ih => simpa [List.foldl_cons, List.length_set] using ih (init.set p.1 (g p))

theorem foldl_set_prop {β γ : Type _} (P : Nat → β → Prop) (g : Nat × γ → β)
    (pairs : List (Nat × γ)) (init : List β)
    (hinit : ∀ i (h : i < init.length), P i (init.get ⟨i, h⟩))
    (hval : ∀ p ∈ pairs, P p.1 (g p)) :
    ∀ i (h : i < (pairs.foldl (fun acc p => acc.set p.1 (g p)) init).length),
      P i ((pairs.foldl (fun acc p => acc.set p.1 (g p)) init).get ⟨i, h⟩) := by
  induction pairs generalizing init with
  | nil => exact hinit
  | cons p ps ih =>
    refine ih (init.set p.1 (g p)) ?_ (fun q hq => hval q (List.mem_cons_of_mem _ hq))
    intro j hj
    rw [List.get_eq_getElem, List.getElem_set]
    split
    · next hpj =>
      have hpj' : p.1 = j := hpj
      exact hpj' ▸ hval p (List.mem_cons_self _ _)
    · next hpj =>
      have := hinit j (by simpa using hj)
      simpa [List.get_eq_getElem] using this

theorem mkResultFromProbs_text (s : String) (p : ℝ × ℝ) :
    (mkResultFromProbs s p).text = s := by
  unfold mkResultFromProbs; split <;> rfl

theorem preprocessSentence_of_blank {s : String} (h : isBlank s = true) :
    preprocessSentence s = "" := by
  simp [preprocessSentence, h]

theorem processBatchE_resOk (infer : List String → Except String (List (ℝ × ℝ)))
    (batch : List String) (res : List (ClassificationResult ℝ))
    (h : processBatchE infer batch = .ok res) : resOk batch res := by
  have hdef : resOk batch (batch.map defaultBatchResult) := by
    refine ⟨List.length_map _ _, ?_⟩
    intro i hi
    have hib : i < batch.length := by simpa using hi
    constructor
    · simp [List.get_eq_getElem, List.getElem_map, defaultBatchResult,
        List.getElem?_eq_getElem hib]
    · intro _
      simp [List.get_eq_getElem, List.getElem_map, List.getElem?_eq_getElem hib]
  simp only [processBatchE] at h
  split at h
  · exact (Except.ok.injEq _ _).mp h ▸ hdef
  · split at h
    · cases h
    · next logitRows heq =>
      rw [Except.ok.injEq] at h
      subst h
      refine ⟨?_, ?_⟩
      · rw [foldl_set_length]
        exact List.length_map _ _
      · refine foldl_set_prop (slotOk batch) _ _ _ hdef.2 ?_
        intro p hp
        have hpi : p.1 ∈ (List.range batch.length).filter
            (fun i => (batch.map preprocessSentence).getD i "" != "") :=
          (List.of_mem_zip hp).1
        have hmem := List.mem_filter.mp hpi
        have hlt : p.1 < batch.length := List.mem_range.mp hmem.1
        have hne : (batch.map preprocessSentence).getD p.1 "" ≠ "" := by
          simpa using hmem.2
        have hgetD : batch.getD p.1 "" = (batch[p.1]?).getD "" :=
          List.getD_eq_getElem?_getD _ _ _
        have hclean : (batch.map preprocessSentence).getD p.1 ""
            = preprocessSentence ((batch[p.1]?).getD "") := by
          have hlt' : p.1 < (batch.map preprocessSentence).length := by simpa using hlt
          rw [List.getD_eq_getElem?_getD, List.getElem?_eq_getElem hlt',
            List.getElem?_eq_getElem hlt]
          simp [List.getElem_map]
        constructor
        · rw [← hgetD]; exact mkResultFromProbs_text _ _
        · intro hblank
          exact absurd (by rw [hclean]; exact preprocessSentence_of_blank hblank) hne

theorem resOk_append {b₁ b₂ : List String} {r₁ r₂ : List (ClassificationResult ℝ)}
    (h₁ : resOk b₁ r₁) (h₂ : resOk b₂ r₂) : resOk (b₁ ++ b₂) (r₁ ++ r₂) := by
  obtain ⟨hl₁, hs₁⟩ := h₁
  obtain ⟨hl₂, hs₂⟩ := h₂
  refine ⟨by simp [hl₁, hl₂], ?_⟩
  intro i hi
  rw [List.get_eq_getElem, List.getElem_append]
  split
  · next hlt =>
    have hib : i < b₁.length := hl₁ ▸ hlt
    have h := hs₁ i hlt
    rw [List.get_eq_getElem] at h
    unfold slotOk at h ⊢
    rwa [List.getElem?_append_left hib]
  · next hge =>
    have hge' : r₁.length ≤ i := Nat.le_of_not_lt hge
    have hi' : i - r₁.length < r₂.length := by
      have hii := hi
      simp only [List.length_append] at hii
      omega
    have h := hs₂ (i - r₁.length) hi'
    rw [List.get_eq_getElem] at h
    unfold slotOk at h ⊢
    rw [List.getElem?_append_right (by omega : b₁.length ≤ i), ← hl₁]
    exact h

theorem runBatches_resOk (infer : List String → Except String (List (ℝ × ℝ)))
    (chunks : List (List String)) (rs : List (ClassificationResult ℝ))
    (h : runBatches infer chunks = .ok rs) : resOk chunks.flatten rs := by
  induction chunks generalizing rs with
  | nil =>
    simp only [runBatches] at h
    cases h
    exact ⟨rfl, fun i hi => absurd hi (by simp)⟩
  | cons b bs ih =>
    simp only [runBatches] at h
    cases hpb : processBatchE infer b with
    | error e => rw [hpb] at h; cases h
    | ok r =>
      rw [hpb] at h
      cases hrb : runBatches infer bs with
      | error e => rw [hrb] at h; cases h
      | ok rest =>
        rw [hrb] at h
        rw [Except.ok.injEq] at h
        subst h
        simpa using resOk_append (processBatchE_resOk infer b r hpb) (ih rest hrb)

theorem processBatchE_exists_ok (infer : List String → Except String (List (ℝ × ℝ)))
    (hok : ∀ chunk, (infer chunk).isOk = true) (batch : List String) :
    ∃ r, processBatchE infer batch = .ok r := by
  simp only [processBatchE]
  split
  · exact ⟨_, rfl⟩
  · cases hiv : infer ((batch.map preprocessSentence).filter (· != "")) with
    | error e =>
      have hk := hok ((batch.map preprocessSentence).filter (· != ""))
      rw [hiv] at hk
      cases hk
    | ok rows => exact ⟨_, rfl⟩

theorem runBatches_exists_ok (infer : List String → Except String (List (ℝ × ℝ)))
    (hok : ∀ chunk, (infer chunk).isOk = true) (chunks : List (List String)) :
    ∃ rs, runBatches infer chunks = .ok rs := by
  induction chunks with
  | nil => exact ⟨[], rfl⟩
  | cons b bs ih =>
    obtain ⟨r, hr⟩ := processBatchE_exists_ok infer hok b
    obtain ⟨rest, hrest⟩ := ih
    exact ⟨r ++ rest, by rw [runBatches, hr, hrest]⟩

theorem chunkListAux_flatten {α : Type} (batchSize : Nat) (hbs : 0 < batchSize) :
    ∀ (fuel : Nat) (l : List α), l.length ≤ fuel →
      (chunkListAux batchSize fuel l).flatten = l := by
  intro fuel
  induction fuel with
  | zero =>
    intro l hl
    cases l with
    | nil => rfl
    | cons c cs => simp at hl
  | succ fuel ih =>
    intro l hl
    cases l with
    | nil => rfl
    | cons c cs =>
      have hmax : max batchSize 1 = batchSize := Nat.max_eq_left hbs
      rw [chunkListAux, List.flatten_cons, hmax, ih _ ?_, List.take_append_drop]
      simp only [List.length_drop, List.length_cons] at hl ⊢
      omega

theorem chunkList_flatten {α : Type} (batchSize : Nat) (hbs : 0 < batchSize)
    (l : List α) : (chunkList batchSize l).flatten = l :=
  chunkListAux_flatten batchSize hbs l.length l le_rfl

/-- C1: for every sentence list and positive batch size, if the model call
succeeds on every chunk then `batch_classify` returns exactly one result per
input sentence, in input order (the `i`-th result echoes the `i`-th input
text), and every empty or whitespace-only input keeps the deterministic
`Non-Claim` / confidence-`0.0` default, which is defined without reference to
the model. -/
theorem batchClassify_one_result_per_input
    (infer : List String → Except String (List (ℝ × ℝ)))
    (batchSize : Nat) (sentences : List String)
    (hbs : 0 < batchSize) (hne : sentences ≠ [])
    (hok : ∀ chunk, (infer chunk).isOk = true) :
    ∃ rs, batchClassifyE infer batchSize sentences = .ok rs ∧
      rs.length = sentences.length ∧
      (∀ i (hi : i < rs.length) (hi' : i < sentences.length),
        (rs.get ⟨i, hi⟩).text = sentences.get ⟨i, hi'⟩ ∧
        (isBlank (sentences.get ⟨i, hi'⟩) = true →
          rs.get ⟨i, hi⟩ = defaultBatchResult (sentences.get ⟨i, hi'⟩))) := by
  obtain ⟨rs, hrs⟩ := runBatches_exists_ok infer hok (chunkList batchSize sentences)
  have hres : resOk sentences rs := by
    have := runBatches_resOk infer _ rs hrs
    rwa [chunkList_flatten batchSize hbs sentences] at this
  refine ⟨rs, ?_, hres.1, ?_⟩
  · simp only [batchClassifyE, List.isEmpty_eq_false.mpr hne, Bool.false_eq_true,
      if_false, hrs]
  · intro i hi hi'
    have h := hres.2 i hi
    unfold slotOk at h
    rw [List.getElem?_eq_getElem hi'] at h
    simp only [Option.getD_some] at h
    exact ⟨by simpa [List.get_eq_getElem] using h.1,
      fun hb => by simpa [List.get_eq_getElem] using h.2 hb⟩

/-- Witness for `batchClassify_one_result_per_input`: a two-sentence list
(one real sentence, one whitespace-only) with the default batch size and an
always-succeeding model. -/
theorem batchClassify_one_result_per_input_witness :
    0 < BATCH_SIZE ∧
    (["Our emissions fell by 10% in 2023", "   "] ≠ []) ∧
    (∀ chunk, (((fun l => Except.ok (l.map fun _ => ((0 : ℝ), 0))) :
        List String → Except String (List (ℝ × ℝ))) chunk).isOk = true) ∧
    (∃ rs, batchClassifyE (fun l => Except.ok (l.map fun _ => ((0 : ℝ), 0)))
        BATCH_SIZE ["Our emissions fell by 10% in 2023", "   "] = .ok rs ∧
      rs.length = (["Our emissions fell by 10% in 2023", "   "] : List String).length ∧
      (∀ i (hi : i < rs.length)
          (hi' : i < (["Our emissions fell by 10% in 2023", "   "] : List String).length),
        (rs.get ⟨i, hi⟩).text
            = (["Our emissions fell by 10% in 2023", "   "] : List String).get ⟨i, hi'⟩ ∧
        (isBlank ((["Our emissions fell by 10% in 2023", "   "] : List String).get ⟨i, hi'⟩)
            = true →
          rs.get ⟨i, hi⟩ = defaultBatchResult
            ((["Our emissions fell by 10% in 2023", "   "] : List String).get ⟨i, hi'⟩)))) :=
  ⟨by norm_num [BATCH_SIZE], by simp, fun _ => rfl,
    batchClassify_one_result_per_input _ BATCH_SIZE _
      (by norm_num [BATCH_SIZE]) (by simp) (fun _ => rfl)⟩

/- ## C3: behaviour when the inference step throws

In `ClaimClassifier.batch_classify` an exception raised while processing a
chunk is caught only by the outer handler, which re-raises it as an
`ESGProcessingError` — the whole pass aborts and no sentence receives a
result.  The recovery behaviour described by the spec lives in
`HuggingFaceClaimClassifier` (`huggingface_classifier.py`), where each
sentence's request failure is converted to a safe default carrying an
`error` annotation. -/

/-- Counterexample to C3 as stated for `ClaimClassifier.batch_classify`: with
an inference step that throws, the whole classification pass aborts with an
`ESGProcessingError`-wrapped message instead of returning per-sentence
defaults. -/
theorem batchClassify_abort_counterexample :
    batchClassifyE (fun _ => .error "model inference failed") BATCH_SIZE
      ["We reduced emissions by 25% in 2023", "We use 100% renewable electricity"]
      = .error "Batch classification failed: model inference failed" := rfl

/-- One `{label, score}` entry of a Hugging Face classification response. -/
structure ApiLabelScore where
  label : String
  score : ℚ
deriving DecidableEq

/-- The shapes `_parse_api_response` distinguishes: a non-empty list whose
first element is itself a list (`response[0]`), a non-empty flat list of
label/score entries, or anything else (empty list / non-list). -/
inductive HfApiResponse where
  | batched (rows : List (List ApiLabelScore))
  | flat (items : List ApiLabelScore)
  | other
deriving DecidableEq

/-- Python `str.upper()` (character-wise). -/
def pyUpper (s : String) : String :=
  String.mk (s.data.map Char.toUpper)

/-- The scan in `_parse_api_response`: each entry whose upper-cased label
contains `CLAIM` or equals `LABEL_1` overwrites the claim score, else one
whose label contains `NON` or equals `LABEL_0` overwrites the non-claim
score; both start at `0.0` and later entries win. -/
def scanScores : List ApiLabelScore → ℚ × ℚ → ℚ × ℚ
  | [], s => s
  | item :: rest, (c, n) =>
    let label := pyUpper item.label
    if containsSub label "CLAIM" || label == "LABEL_1" then
      scanScores rest (item.score, n)
    else if containsSub label "NON" || label == "LABEL_0" then
      scanScores rest (c, item.score)
    else scanScores rest (c, n)

/-- The safe default the Hugging Face classifier substitutes on failures or
unexpected response formats: `Non-Claim`, confidence `0.0`, raw scores
`[1.0, 0.0]`, optionally carrying the error message. -/
def hfDefaultResult (sentence : String) (err : Option String) :
    ClassificationResult ℚ :=
  { text := sentence, prediction := "Non-Claim", confidence := 0,
    is_claim := false, raw_scores := [1, 0], error := err }

/-- `HuggingFaceClaimClassifier._parse_api_response`. -/
def parseApiResponse (response : HfApiResponse) (originalText : String) :
    ClassificationResult ℚ :=
  let fromItems := fun (items : List ApiLabelScore) =>
    let (claimScore, nonClaimScore) := scanScores items (0, 0)
    let isClaim := nonClaimScore < claimScore
    { text := originalText,
      prediction := if isClaim then "Claim" else "Non-Claim",
      confidence := if isClaim then claimScore else nonClaimScore,
      is_claim := isClaim,
      raw_scores := [nonClaimScore, claimScore],
      error := none : ClassificationResult ℚ }
  match response with
  | .batched (row :: _) => fromItems row
  | .batched [] => hfDefaultResult originalText none
  | .flat (item :: items) => fromItems (item :: items)
  | .flat [] => hfDefaultResult originalText none
  | .other => hfDefaultResult originalText none

/-- `HuggingFaceClaimClassifier.classify_sentence`: blank input
short-circuits to the default; otherwise the stripped sentence is sent to the
API (a call that may raise), the response is parsed, and any exception is
converted into the safe default annotated with the error message. -/
def hfClassifySentence (api : String → Except String HfApiResponse)
    (sentence : String) : ClassificationResult ℚ :=
  if isBlank sentence then hfDefaultResult sentence none
  else
    match api (pyStrip sentence) with
    | .ok response => parseApiResponse response sentence
    | .error e => hfDefaultResult sentence (some e)

/-- `HuggingFaceClaimClassifier.batch_classify`: result slots are
pre-allocated by index and each worker writes only its own slot, so the
concurrent dispatch denotes an index-preserving map; a per-request failure
populates only that slot with the annotated safe default (already the
behaviour of `classify_sentence`, whose handler is total). -/
def hfBatchClassify (api : String → Except String HfApiResponse)
    (sentences : List String) : List (ClassificationResult ℚ) :=
  if sentences.isEmpty then []
  else sentences.map (hfClassifySentence api)

/-- C3 (amended): in the Hugging Face classifier, batch classification
returns one result per input sentence in input order; a sentence whose API
request throws is replaced — in its own slot only — by a `Non-Claim` result
with confidence `0.0` carrying the error annotation, while all remaining
sentences still receive results.  (The local `ClaimClassifier`, by contrast,
aborts the whole pass: `batchClassify_abort_counterexample`.) -/
theorem hfBatchClassify_error_isolation (api : String → Except String HfApiResponse)
    (sentences : List String) :
    (hfBatchClassify api sentences).length = sentences.length ∧
    (∀ i (hi : i < (hfBatchClassify api sentences).length)
        (hi' : i < sentences.length),
      (hfBatchClassify api sentences).get ⟨i, hi⟩
          = hfClassifySentence api (sentences.get ⟨i, hi'⟩) ∧
      (∀ e, isBlank (sentences.get ⟨i, hi'⟩) = false →
        api (pyStrip (sentences.get ⟨i, hi'⟩)) = .error e →
        (hfBatchClassify api sentences).get ⟨i, hi⟩
          = hfDefaultResult (sentences.get ⟨i, hi'⟩) (some e))) := by
  by_cases hs : sentences = []
  · subst hs
    exact ⟨rfl, fun i hi => absurd hi (by simp [hfBatchClassify])⟩
  · have hne : sentences.isEmpty = false := List.isEmpty_eq_false.mpr hs
    constructor
    · simp [hfBatchClassify, hne]
    · intro i hi hi'
      have hmap : (hfBatchClassify api sentences).get ⟨i, hi⟩
          = hfClassifySentence api (sentences.get ⟨i, hi'⟩) := by
        simp only [hfBatchClassify, hne, Bool.false_eq_true, if_false,
          List.get_eq_getElem, List.getElem_map]
      refine ⟨hmap, ?_⟩
      intro e hblank herr
      rw [hmap, hfClassifySentence, hblank, herr]
      simp

/-- Witness for `hfBatchClassify_error_isolation`: an API that times out on
every request, over one real sentence and one empty sentence; the failing
sentence's slot carries the error annotation. -/
theorem hfBatchClassify_error_isolation_witness :
    (0 : Nat) < (hfBatchClassify (fun _ => .error "request timed out")
        ["Net zero carbon by 2030", ""]).length ∧
    (0 : Nat) < (["Net zero carbon by 2030", ""] : List String).length ∧
    isBlank ((["Net zero carbon by 2030", ""] : List String).get ⟨0, by decide⟩) = false ∧
    (hfBatchClassify (fun _ => .error "request timed out")
        ["Net zero carbon by 2030", ""]).get ⟨0, by decide⟩
      = hfDefaultResult "Net zero carbon by 2030" (some "request timed out") :=
  ⟨by decide, by decide, by decide,
    ((hfBatchClassify_error_isolation (fun _ => .error "request timed out")
        ["Net zero carbon by 2030", ""]).2 0 (by decide) (by decide)).2
      "request timed out" (by decide) rfl⟩

/- ## C6: `classify_sentence` probability invariants -/

/-- `ClaimClassifier.classify_sentence`: blank input short-circuits to a
deterministic `Non-Claim` with confidence `0.0` and raw scores `[0.0, 0.0]`
(note: *not* `[1.0, 0.0]` as in the batch path); otherwise the model's logits
for the cleaned sentence are softmaxed and the argmax class reported. -/
noncomputable def classifySentence (logits : String → ℝ × ℝ) (sentence : String) :
    ClassificationResult ℝ :=
  if isBlank sentence then
    { text := sentence, prediction := "Non-Claim", confidence := 0,
      is_claim := false, raw_scores := [0, 0] }
  else
    mkResultFromProbs sentence (softmax2 (logits (preprocessSentence sentence)))

theorem softmax2_denom_pos (z : ℝ × ℝ) : 0 < Real.exp z.1 + Real.exp z.2 := by
  positivity

theorem softmax2_fst_mem (z : ℝ × ℝ) : 0 ≤ (softmax2 z).1 ∧ (softmax2 z).1 ≤ 1 := by
  have hd := softmax2_denom_pos z
  constructor
  · exact div_nonneg (Real.exp_pos _).le hd.le
  · rw [softmax2, div_le_one hd]
    exact le_add_of_nonneg_right (Real.exp_pos _).le

theorem softmax2_snd_mem (z : ℝ × ℝ) : 0 ≤ (softmax2 z).2 ∧ (softmax2 z).2 ≤ 1 := by
  have hd := softmax2_denom_pos z
  constructor
  · exact div_nonneg (Real.exp_pos _).le hd.le
  · rw [softmax2, div_le_one hd]
    exact le_add_of_nonneg_left (Real.exp_pos _).le

theorem softmax2_sum (z : ℝ × ℝ) : (softmax2 z).1 + (softmax2 z).2 = 1 := by
  have hd := softmax2_denom_pos z
  rw [softmax2]
  field_simp

/-- Counterexample to C6 as stated: for the empty sentence,
`classify_sentence` short-circuits to raw scores `[0.0, 0.0]`, which sum to
`0`, not to `1` within `1e-6`. -/
theorem classifySentence_blank_counterexample :
    (classifySentence (fun _ => ((0 : ℝ), 0)) "").raw_scores = [(0 : ℝ), 0] ∧
    (classifySentence (fun _ => ((0 : ℝ), 0)) "").raw_scores.sum = 0 ∧
    ¬ |(classifySentence (fun _ => ((0 : ℝ), 0)) "").raw_scores.sum - 1|
        ≤ 1/1000000 := by
  have h : (classifySentence (fun _ => ((0 : ℝ), 0)) "").raw_scores = [(0 : ℝ), 0] := rfl
  refine ⟨h, ?_, ?_⟩
  · rw [h]; norm_num
  · rw [h]; norm_num

/-- C6 (amended): for every sentence that is not empty/whitespace-only,
`classify_sentence` returns a confidence in `[0,1]` and a two-element raw
score vector summing to exactly `1` (hence to `1` within `1e-6`), with the
confidence equal to the raw score of the predicted class.  (Blank sentences
short-circuit to confidence `0.0` with raw scores `[0.0, 0.0]`, whose sum is
`0`: `classifySentence_blank_counterexample`.) -/
theorem classifySentence_probability_invariants (logits : String → ℝ × ℝ)
    (sentence : String) (h : isBlank sentence = false) :
    0 ≤ (classifySentence logits sentence).confidence ∧
    (classifySentence logits sentence).confidence ≤ 1 ∧
    (classifySentence logits sentence).raw_scores.length = 2 ∧
    (classifySentence logits sentence).raw_scores.sum = 1 ∧
    |(classifySentence logits sentence).raw_scores.sum - 1| ≤ 1/1000000 ∧
    (classifySentence logits sentence).confidence
      = (if (classifySentence logits sentence).is_claim
          then (classifySentence logits sentence).raw_scores.getD 1 0
          else (classifySentence logits sentence).raw_scores.getD 0 0) := by
  have hcl : classifySentence logits sentence
      = mkResultFromProbs sentence (softmax2 (logits (preprocessSentence sentence))) := by
    rw [classifySentence, h]
    simp
  set p := softmax2 (logits (preprocessSentence sentence)) with hp
  have h1 := softmax2_fst_mem (logits (preprocessSentence sentence))
  have h2 := softmax2_snd_mem (logits (preprocessSentence sentence))
  have hsum := softmax2_sum (logits (preprocessSentence sentence))
  rw [← hp] at h1 h2 hsum
  rw [hcl, mkResultFromProbs]
  split
  · refine ⟨h2.1, h2.2, rfl, ?_, ?_, rfl⟩
    · simpa using hsum
    · simp only [List.sum_cons, List.sum_nil, add_zero]
      rw [hsum]
      norm_num
  · refine ⟨h1.1, h1.2, rfl, ?_, ?_, rfl⟩
    · simpa using hsum
    · simp only [List.sum_cons, List.sum_nil, add_zero]
      rw [hsum]
      norm_num

/-- Witness for `classifySentence_probability_invariants` at a concrete
non-blank sentence. -/
theorem classifySentence_probability_invariants_witness :
    isBlank "We cut our CO2 footprint in half" = false ∧
    0 ≤ (classifySentence (fun _ => ((0 : ℝ), 0))
        "We cut our CO2 footprint in half").confidence ∧
    (classifySentence (fun _ => ((0 : ℝ), 0))
        "We cut our CO2 footprint in half").raw_scores.sum = 1 :=
  ⟨by decide,
    (classifySentence_probability_invariants (fun _ => ((0 : ℝ), 0))
      "We cut our CO2 footprint in half" (by decide)).1,
    (classifySentence_probability_invariants (fun _ => ((0 : ℝ), 0))
      "We cut our CO2 footprint in half" (by decide)).2.2.2.1⟩

/- ## The ESG verifier (`esg_verifier.py`): data model and company lookup -/

/-- One row of the loaded reference dataset.  `_load_data` strips `company`
and `metric`, fills missing units with `''`, and coerces `value`/`year`
numerically with non-numeric entries becoming null (`none`). -/
structure RefRecord where
  company : String
  year : Option ℚ
  metric : String
  value : Option ℚ
  unit : String
  source : String
deriving DecidableEq

/-- `ESGVerifier._get_company_data_for_verification`: exact case-insensitive
match first; if that is empty, iterate the rows and, for the first row whose
lower-cased company name contains the lower-cased candidate or vice versa —
and only when the candidate's length exceeds 3 — return that row's full
record group (all rows with exactly the same `company` value); otherwise
return the empty frame. -/
def getCompanyDataForVerification (data : List RefRecord) (companyName : String) :
    List RefRecord :=
  let exactMatch := data.filter (fun r => pyLower r.company == pyLower companyName)
  if exactMatch.isEmpty then
    match data.find? (fun r =>
        (containsSub (pyLower r.company) (pyLower companyName) ||
          containsSub (pyLower companyName) (pyLower r.company)) &&
        decide (3 < (pyLower companyName).length)) with
    | some r => data.filter (fun r2 => r2.company == r.company)
    | none => []
  else exactMatch

theorem pyLower_length (s : String) : (pyLower s).length = s.length := by
  show (s.data.map Char.toLower).length = s.data.length
  exact List.length_map _ _

theorem find?_congrPred {α : Type} (p q : α → Bool) (l : List α)
    (h : ∀ a, p a = q a) : l.find? p = l.find? q := by
  induction l with
  | nil => rfl
  | cons x xs ih =>
    rw [List.find?_cons, List.find?_cons, h x]
    cases q x <;> simp [ih]

/-- C5: company lookup tries the exact case-insensitive match first and
returns all its rows; only when that is empty does substring containment (in
either direction) apply, and only for candidate names longer than 3
characters; the fallback returns the full record group of the *first*
containment match in row order, not an accumulation over all partial
matches; with no match at all the result is empty. -/
theorem companyLookup_spec (data : List RefRecord) (companyName : String) :
    (data.filter (fun r => pyLower r.company == pyLower companyName) ≠ [] →
      getCompanyDataForVerification data companyName
        = data.filter (fun r => pyLower r.company == pyLower companyName)) ∧
    (data.filter (fun r => pyLower r.company == pyLower companyName) = [] →
      companyName.length ≤ 3 →
      getCompanyDataForVerification data companyName = []) ∧
    (data.filter (fun r => pyLower r.company == pyLower companyName) = [] →
      3 < companyName.length →
      ∀ r, data.find? (fun r =>
          containsSub (pyLower r.company) (pyLower companyName) ||
            containsSub (pyLower companyName) (pyLower r.company)) = some r →
        getCompanyDataForVerification data companyName
          = data.filter (fun r2 => r2.company == r.company)) ∧
    (data.filter (fun r => pyLower r.company == pyLower companyName) = [] →
      3 < companyName.length →
      data.find? (fun r =>
          containsSub (pyLower r.company) (pyLower companyName) ||
            containsSub (pyLower companyName) (pyLower r.company)) = none →
      getCompanyDataForVerification data companyName = []) := by
  refine ⟨?_, ?_, ?_, ?_⟩
  · intro hne
    rw [getCompanyDataForVerification]
    simp only [List.isEmpty_eq_false.mpr hne, Bool.false_eq_true, if_false]
  · intro hemp hlen
    rw [getCompanyDataForVerification]
    simp only [hemp, List.isEmpty_nil, if_true]
    have hfalse : decide (3 < (pyLower companyName).length) = false := by
      rw [pyLower_length]
      simpa using Nat.not_lt.mpr hlen
    have : data.find? (fun r =>
        (containsSub (pyLower r.company) (pyLower companyName) ||
          containsSub (pyLower companyName) (pyLower r.company)) &&
        decide (3 < (pyLower companyName).length)) = none := by
      rw [List.find?_eq_none]
      intro x _
      simp [hfalse]
    rw [this]
  · intro hemp hlen r hfind
    rw [getCompanyDataForVerification]
    simp only [hemp, List.isEmpty_nil, if_true]
    have htrue : decide (3 < (pyLower companyName).length) = true := by
      rw [pyLower_length]
      simpa using hlen
    rw [find?_congrPred _ (fun r =>
        containsSub (pyLower r.company) (pyLower companyName) ||
          containsSub (pyLower companyName) (pyLower r.company)) _
      (fun a => by rw [htrue, Bool.and_true]), hfind]
  · intro hemp hlen hfind
    rw [getCompanyDataForVerification]
    simp only [hemp, List.isEmpty_nil, if_true]
    have htrue : decide (3 < (pyLower companyName).length) = true := by
      rw [pyLower_length]
      simpa using hlen
    rw [find?_congrPred _ (fun r =>
        containsSub (pyLower r.company) (pyLower companyName) ||
          containsSub (pyLower companyName) (pyLower r.company)) _
      (fun a => by rw [htrue, Bool.and_true]), hfind]

/-- A sample reference row used by concrete instantiations below. -/
def acmeRow : RefRecord :=
  { company := "Acme Corp", year := some 2023, metric := "emissions",
    value := some 100, unit := "tons", source := "web" }

/-- A second sample reference row with a different company. -/
def globexRow : RefRecord :=
  { company := "Globex", year := some 2023, metric := "emissions",
    value := some 50, unit := "tons", source := "web" }

set_option maxRecDepth 8000 in
/-- Witness for `companyLookup_spec`: candidate `"Acme"` (length 4, no exact
row) falls back to containment and returns the full `"Acme Corp"` group. -/
theorem companyLookup_spec_witness :
    ([acmeRow, globexRow] : List RefRecord).filter
        (fun r => pyLower r.company == pyLower "Acme") = [] ∧
    3 < ("Acme" : String).length ∧
    getCompanyDataForVerification [acmeRow, globexRow] "Acme"
      = ([acmeRow, globexRow] : List RefRecord).filter
          (fun r2 => r2.company == acmeRow.company) :=
  ⟨by decide, by decide,
    (companyLookup_spec [acmeRow, globexRow] "Acme").2.2.1
      (by decide) (by decide) acmeRow (by decide)⟩

/- ## C9: `_basic_extract_claim_data` — deterministic fallback extraction

The three `re.findall(...)[0]` calls are embedded as leftmost-match scanners:
a matcher anchored at one position, wrapped in a scan that tries positions
left to right and keeps the first hit (Python's leftmost-match semantics).
For these particular patterns greedy matching without backtracking coincides
with the regex: every quantified piece is followed by a piece that can never
consume what backtracking would return (a digit run is never followed by a
digit, dropping a `,ddd` group leaves a comma where only `.`/space/unit may
stand, dropping a fraction leaves a `.`). -/

/-- The extracted-fact record (`ExtractedClaimData` dataclass). -/
structure ExtractedClaimData where
  metric : Option String := none
  value : Option ℚ := none
  unit : Option String := none
  year : Option Int := none
  percentage : Option ℚ := none
  raw_text : String := ""
deriving DecidableEq

/-- Python regex `\w`: ASCII letters, digits and underscore. -/
def isWordChar (c : Char) : Bool :=
  c.isAlphanum || c == '_'

/-- Leftmost-match scan: try the anchored matcher at every position, left to
right, returning the first hit. -/
def scanFirst {α : Type} (m : List Char → Option α) : List Char → Option α
  | [] => m []
  | c :: cs =>
    match m (c :: cs) with
    | some v => some v
    | none => scanFirst m cs

/-- Leftmost-match scan for matchers that inspect the preceding character
(for `\b`); `prev` is the character just before the current position. -/
def scanFirstPrev {α : Type} (m : Option Char → List Char → Option α) :
    Option Char → List Char → Option α
  | prev, [] => m prev []
  | prev, c :: cs =>
    match m prev (c :: cs) with
    | some v => some v
    | none => scanFirstPrev m (some c) cs

/-- `\b` holds before the current position: start of string or preceding
character not a word character. -/
def boundaryBefore (prev : Option Char) : Bool :=
  match prev with
  | none => true
  | some c => !isWordChar c

/-- `\b` holds after the matched digits: end of string or next character not
a word character. -/
def boundaryAfter (rest : List Char) : Bool :=
  match rest with
  | [] => true
  | e :: _ => !isWordChar e

/-- `\b(202[0-5])\b` anchored at one position: a word boundary before `202d`
(`d ∈ 0..5`) and after it. -/
def matchYearAt (prev : Option Char) (cs : List Char) : Option Nat :=
  match cs with
  | c1 :: c2 :: c3 :: d :: rest =>
    if (c1 == '2' && c2 == '0' && c3 == '2') &&
        ['0', '1', '2', '3', '4', '5'].contains d &&
        (boundaryBefore prev && boundaryAfter rest) then
      some (2020 + (d.toNat - '0'.toNat))
    else none
  | _ => none

/-- Digit characters to the natural number they denote. -/
def digitsToNat (ds : List Char) : Nat :=
  ds.foldl (fun n d => 10 * n + (d.toNat - '0'.toNat)) 0

/-- The rational denoted by an integer digit run and a fractional digit run
(Python `float("<ds>.<fs>")`, exact here). -/
def ratOfDigits (ds fs : List Char) : ℚ :=
  (digitsToNat ds : ℚ) + (digitsToNat fs : ℚ) / (10 ^ fs.length)

/-- `(\d+(?:\.\d+)?)\s*%` anchored at one position; returns the numeric value
of group 1. -/
def matchPercentAt (cs : List Char) : Option ℚ :=
  let ds := cs.takeWhile Char.isDigit
  if ds.isEmpty then none
  else
    let rest1 := cs.dropWhile Char.isDigit
    let fracRest : List Char × List Char :=
      match rest1 with
      | '.' :: t => if (t.takeWhile Char.isDigit).isEmpty then ([], rest1)
          else (t.takeWhile Char.isDigit, t.dropWhile Char.isDigit)
      | _ => ([], rest1)
    match fracRest.2.dropWhile Char.isWhitespace with
    | '%' :: _ => some (ratOfDigits ds fracRest.1)
    | _ => none

/-- `(?:,\d{3})*`: consume comma-separated three-digit groups, returning the
collected digits (commas dropped, as by `.replace(',', '')`) and the rest. -/
def takeCommaGroups : List Char → List Char × List Char
  | ',' :: d1 :: d2 :: d3 :: rest =>
    if d1.isDigit && d2.isDigit && d3.isDigit then
      let p := takeCommaGroups rest
      (d1 :: d2 :: d3 :: p.1, p.2)
    else ([], ',' :: d1 :: d2 :: d3 :: rest)
  | cs => ([], cs)

/-- The unit alternation `tons?|tonnes?|tco2e?|kwh|mwh|gwh`, alternatives in
order, the optional final letter taken greedily (nothing follows the group,
so `tonnes` yields `ton` + leftover, exactly as `re` does). -/
def matchUnitAt (cs : List Char) : Option String :=
  if cs.take 4 = "tons".data then some "tons"
  else if cs.take 3 = "ton".data then some "ton"
  else if cs.take 6 = "tonnes".data then some "tonnes"
  else if cs.take 5 = "tonne".data then some "tonne"
  else if cs.take 5 = "tco2e".data then some "tco2e"
  else if cs.take 4 = "tco2".data then some "tco2"
  else if cs.take 3 = "kwh".data then some "kwh"
  else if cs.take 3 = "mwh".data then some "mwh"
  else if cs.take 3 = "gwh".data then some "gwh"
  else none

/-- `(\d+(?:,\d{3})*(?:\.\d+)?)\s*(tons?|tonnes?|tco2e?|kwh|mwh|gwh)` anchored
at one position; returns (numeric value of group 1 with commas removed, unit
of group 2). -/
def matchNumberUnitAt (cs : List Char) : Option (ℚ × String) :=
  let ds := cs.takeWhile Char.isDigit
  if ds.isEmpty then none
  else
    let cg := takeCommaGroups (cs.dropWhile Char.isDigit)
    let fracRest : List Char × List Char :=
      match cg.2 with
      | '.' :: t => if (t.takeWhile Char.isDigit).isEmpty then ([], cg.2)
          else (t.takeWhile Char.isDigit, t.dropWhile Char.isDigit)
      | _ => ([], cg.2)
    match matchUnitAt (fracRest.2.dropWhile Char.isWhitespace) with
    | some u => some (ratOfDigits (ds ++ cg.1) fracRest.1, u)
    | none => none

/-- `ESGVerifier._basic_extract_claim_data`: lower-case and strip the claim
text, then take the first match of each pattern independently (year,
percentage, value+unit) and infer the metric from keyword containment;
unmatched fields stay `None`. -/
def basicExtractClaimData (claimText : String) : ExtractedClaimData :=
  let cleanText := pyStrip (pyLower claimText)
  let cs := cleanText.data
  let yearMatch := scanFirstPrev matchYearAt none cs
  let percentMatch := scanFirst matchPercentAt cs
  let numberMatch := scanFirst matchNumberUnitAt cs
  { metric :=
      if containsSub cleanText "emission" || containsSub cleanText "co2" then
        some "emissions"
      else if containsSub cleanText "renewable" then
        some "renewable_energy_percent"
      else none,
    value := numberMatch.map (·.1),
    unit := numberMatch.map (·.2),
    year := yearMatch.map Int.ofNat,
    percentage := percentMatch,
    raw_text := claimText }

/-- The character preceding position `k` (`none` at the very start). -/
def prevAt (p₀ : Option Char) (cs : List Char) (k : Nat) : Option Char :=
  match k with
  | 0 => p₀
  | j + 1 => cs[j]?

theorem prevAt_cons (c : Char) (cs : List Char) (k : Nat) :
    prevAt (some c) cs k = (c :: cs)[k]? := by
  cases k with
  | zero => simp [prevAt]
  | succ j => simp [prevAt]

theorem scanFirst_some_leftmost {α : Type} (m : List Char → Option α) :
    ∀ (cs : List Char) (v : α), scanFirst m cs = some v →
      ∃ k, k ≤ cs.length ∧ m (cs.drop k) = some v ∧
        ∀ j < k, m (cs.drop j) = none := by
  intro cs
  induction cs with
  | nil =>
    intro v h
    exact ⟨0, Nat.le_refl _, h, fun j hj => absurd hj (Nat.not_lt_zero _)⟩
  | cons c cs ih =>
    intro v h
    rw [scanFirst] at h
    cases hm : m (c :: cs) with
    | some w =>
      rw [hm] at h
      exact ⟨0, Nat.zero_le _, by rw [List.drop_zero]; exact hm.trans h,
        fun j hj => absurd hj (Nat.not_lt_zero _)⟩
    | none =>
      rw [hm] at h
      obtain ⟨k, hk, hsome, hnone⟩ := ih v h
      refine ⟨k + 1, by simpa using Nat.succ_le_succ hk, by simpa using hsome, ?_⟩
      intro j hj
      cases j with
      | zero => simpa using hm
      | succ i => simpa using hnone i (Nat.lt_of_succ_lt_succ hj)

theorem scanFirst_none {α : Type} (m : List Char → Option α) :
    ∀ (cs : List Char), scanFirst m cs = none →
      ∀ k ≤ cs.length, m (cs.drop k) = none := by
  intro cs
  induction cs with
  | nil =>
    intro h k hk
    have hk0 : k = 0 := Nat.le_zero.mp (by simpa using hk)
    subst hk0
    exact h
  | cons c cs ih =>
    intro h k hk
    rw [scanFirst] at h
    cases hm : m (c :: cs) with
    | some w => rw [hm] at h; cases h
    | none =>
      rw [hm] at h
      cases k with
      | zero => simpa using hm
      | succ i => simpa using ih h i (by simpa using hk)

theorem scanFirstPrev_some_leftmost {α : Type} (m : Option Char → List Char → Option α) :
    ∀ (cs : List Char) (prev : Option Char) (v : α),
      scanFirstPrev m prev cs = some v →
      ∃ k, k ≤ cs.length ∧ m (prevAt prev cs k) (cs.drop k) = some v ∧
        ∀ j < k, m (prevAt prev cs j) (cs.drop j) = none := by
  intro cs
  induction cs with
  | nil =>
    intro prev v h
    exact ⟨0, Nat.le_refl _, h, fun j hj => absurd hj (Nat.not_lt_zero _)⟩
  | cons c cs ih =>
    intro prev v h
    rw [scanFirstPrev] at h
    cases hm : m prev (c :: cs) with
    | some w =>
      rw [hm] at h
      exact ⟨0, Nat.zero_le _, by rw [List.drop_zero]; exact hm.trans h,
        fun j hj => absurd hj (Nat.not_lt_zero _)⟩
    | none =>
      rw [hm] at h
      obtain ⟨k, hk, hsome, hnone⟩ := ih (some c) v h
      refine ⟨k + 1, by simpa using Nat.succ_le_succ hk, ?_, ?_⟩
      · rw [show prevAt prev (c :: cs) (k + 1) = prevAt (some c) cs k from
          (prevAt_cons c cs k).symm]
        simpa using hsome
      · intro j hj
        cases j with
        | zero => simpa [prevAt] using hm
        | succ i =>
          rw [show prevAt prev (c :: cs) (i + 1) = prevAt (some c) cs i from
            (prevAt_cons c cs i).symm]
          simpa using hnone i (Nat.lt_of_succ_lt_succ hj)

theorem scanFirstPrev_none {α : Type} (m : Option Char → List Char → Option α) :
    ∀ (cs : List Char) (prev : Option Char), scanFirstPrev m prev cs = none →
      ∀ k ≤ cs.length, m (prevAt prev cs k) (cs.drop k) = none := by
  intro cs
  induction cs with
  | nil =>
    intro prev h k hk
    have hk0 : k = 0 := Nat.le_zero.mp (by simpa using hk)
    subst hk0
    exact h
  | cons c cs ih =>
    intro prev h k hk
    rw [scanFirstPrev] at h
    cases hm : m prev (c :: cs) with
    | some w => rw [hm] at h; cases h
    | none =>
      rw [hm] at h
      cases k with
      | zero => simpa [prevAt] using hm
      | succ i =>
        rw [show prevAt prev (c :: cs) (i + 1) = prevAt (some c) cs i from
          (prevAt_cons c cs i).symm]
        simpa using ih (some c) h i (by simpa using hk)

theorem matchYearAt_mem (prev : Option Char) (cs : List Char) (y : Nat)
    (h : matchYearAt prev cs = some y) : 2020 ≤ y ∧ y ≤ 2025 := by
  unfold matchYearAt at h
  split at h
  · next c1 c2 c3 d rest =>
    split at h
    · next hcond =>
      simp only [Bool.and_eq_true] at hcond
      obtain ⟨⟨_, hd⟩, _⟩ := hcond
      have hd' : d ∈ ['0', '1', '2', '3', '4', '5'] := by
        simpa using hd
      rw [Option.some.injEq] at h
      subst h
      simp only [List.mem_cons, List.not_mem_nil, or_false] at hd'
      rcases hd' with h' | h' | h' | h' | h' | h' <;> subst h' <;> decide
    · cases h
  · cases h

theorem matchUnitAt_mem (cs : List Char) (u : String) (h : matchUnitAt cs = some u) :
    u ∈ (["tons", "ton", "tonnes", "tonne", "tco2e", "tco2",
      "kwh", "mwh", "gwh"] : List String) := by
  unfold matchUnitAt at h
  split_ifs at h <;> simp_all

theorem matchNumberUnitAt_unit_mem (cs : List Char) (v : ℚ) (u : String)
    (h : matchNumberUnitAt cs = some (v, u)) :
    u ∈ (["tons", "ton", "tonnes", "tonne", "tco2e", "tco2",
      "kwh", "mwh", "gwh"] : List String) := by
  simp only [matchNumberUnitAt] at h
  split at h
  · cases h
  · split at h
    · next u' hu =>
      rw [Option.some.injEq, Prod.mk.injEq] at h
      exact h.2 ▸ matchUnitAt_mem _ u' hu
    · cases h

/-- C9: every field of the deterministic fallback extraction is set from the
*first* (leftmost) match of its regex only — a set field is witnessed by a
position whose anchored match produced exactly that value while every earlier
position fails to match, and a field with no matching position stays unset;
a set year always lies in `[2020, 2025]`, a set unit is one of the
alternation's outputs, and value and unit are set together (from the same
single match); the metric is `emissions` when the cleaned text contains
`emission` or `co2`, else `renewable_energy_percent` when it contains
`renewable`, else unset. -/
theorem basicExtract_first_match_only (claimText : String) :
    (basicExtractClaimData claimText).percentage
      = scanFirst matchPercentAt (pyStrip (pyLower claimText)).data ∧
    (basicExtractClaimData claimText).value
      = (scanFirst matchNumberUnitAt (pyStrip (pyLower claimText)).data).map (·.1) ∧
    (basicExtractClaimData claimText).unit
      = (scanFirst matchNumberUnitAt (pyStrip (pyLower claimText)).data).map (·.2) ∧
    (basicExtractClaimData claimText).year
      = (scanFirstPrev matchYearAt none (pyStrip (pyLower claimText)).data).map Int.ofNat ∧
    (basicExtractClaimData claimText).metric
      = (if containsSub (pyStrip (pyLower claimText)) "emission" ||
            containsSub (pyStrip (pyLower claimText)) "co2" then some "emissions"
          else if containsSub (pyStrip (pyLower claimText)) "renewable" then
            some "renewable_energy_percent"
          else none) ∧
    (∀ q, (basicExtractClaimData claimText).percentage = some q →
      ∃ k, k ≤ (pyStrip (pyLower claimText)).data.length ∧
        matchPercentAt ((pyStrip (pyLower claimText)).data.drop k) = some q ∧
        ∀ j < k, matchPercentAt ((pyStrip (pyLower claimText)).data.drop j) = none) ∧
    ((basicExtractClaimData claimText).percentage = none →
      ∀ k ≤ (pyStrip (pyLower claimText)).data.length,
        matchPercentAt ((pyStrip (pyLower claimText)).data.drop k) = none) ∧
    (∀ vu : ℚ × String,
      scanFirst matchNumberUnitAt (pyStrip (pyLower claimText)).data = some vu →
      ∃ k, k ≤ (pyStrip (pyLower claimText)).data.length ∧
        matchNumberUnitAt ((pyStrip (pyLower claimText)).data.drop k) = some vu ∧
        ∀ j < k, matchNumberUnitAt ((pyStrip (pyLower claimText)).data.drop j) = none) ∧
    ((basicExtractClaimData claimText).value = none →
      ∀ k ≤ (pyStrip (pyLower claimText)).data.length,
        matchNumberUnitAt ((pyStrip (pyLower claimText)).data.drop k) = none) ∧
    (∀ y, (basicExtractClaimData claimText).year = some y →
      ∃ k, k ≤ (pyStrip (pyLower claimText)).data.length ∧
        (matchYearAt (prevAt none (pyStrip (pyLower claimText)).data k)
            ((pyStrip (pyLower claimText)).data.drop k)).map Int.ofNat = some y ∧
        ∀ j < k, matchYearAt (prevAt none (pyStrip (pyLower claimText)).data j)
            ((pyStrip (pyLower claimText)).data.drop j) = none) ∧
    ((basicExtractClaimData claimText).year = none →
      ∀ k ≤ (pyStrip (pyLower claimText)).data.length,
        matchYearAt (prevAt none (pyStrip (pyLower claimText)).data k)
          ((pyStrip (pyLower claimText)).data.drop k) = none) ∧
    (∀ y, (basicExtractClaimData claimText).year = some y →
      2020 ≤ y ∧ y ≤ 2025) ∧
    (∀ u, (basicExtractClaimData claimText).unit = some u →
      u ∈ (["tons", "ton", "tonnes", "tonne", "tco2e", "tco2",
        "kwh", "mwh", "gwh"] : List String)) ∧
    ((basicExtractClaimData claimText).value = none ↔
      (basicExtractClaimData claimText).unit = none) := by
  refine ⟨rfl, rfl, rfl, rfl, rfl, ?_, ?_, ?_, ?_, ?_, ?_, ?_, ?_, ?_⟩
  · intro q h
    exact scanFirst_some_leftmost matchPercentAt _ q h
  · intro h
    exact scanFirst_none matchPercentAt _ h
  · intro vu h
    exact scanFirst_some_leftmost matchNumberUnitAt _ vu h
  · intro h
    have h' : scanFirst matchNumberUnitAt (pyStrip (pyLower claimText)).data = none :=
      Option.map_eq_none'.mp h
    exact scanFirst_none matchNumberUnitAt _ h'
  · intro y h
    obtain ⟨y', hy', hmap⟩ := Option.map_eq_some'.mp h
    obtain ⟨k, hk, hsome, hnone⟩ := scanFirstPrev_some_leftmost matchYearAt _ none y' hy'
    refine ⟨k, hk, ?_, hnone⟩
    rw [hsome]
    simp only [Option.map_some', Option.some.injEq]
    exact hmap
  · intro h
    have h' : scanFirstPrev matchYearAt none (pyStrip (pyLower claimText)).data = none :=
      Option.map_eq_none'.mp h
    exact scanFirstPrev_none matchYearAt _ none h'
  · intro y h
    obtain ⟨y', hy', hmap⟩ := Option.map_eq_some'.mp h
    obtain ⟨k, _, hsome, _⟩ := scanFirstPrev_some_leftmost matchYearAt _ none y' hy'
    have hb := matchYearAt_mem _ _ y' hsome
    subst hmap
    have hcast : Int.ofNat y' = (y' : ℤ) := rfl
    exact ⟨by rw [hcast]; omega, by rw [hcast]; omega⟩
  · intro u h
    obtain ⟨p, hp, hpu⟩ := Option.map_eq_some'.mp h
    obtain ⟨k, _, hsome, _⟩ := scanFirst_some_leftmost matchNumberUnitAt _ p hp
    exact hpu ▸ matchNumberUnitAt_unit_mem _ p.1 p.2 hsome
  · constructor
    · intro h
      have h' : scanFirst matchNumberUnitAt (pyStrip (pyLower claimText)).data = none :=
        Option.map_eq_none'.mp h
      exact Option.map_eq_none'.mpr h'
    · intro h
      have h' : scanFirst matchNumberUnitAt (pyStrip (pyLower claimText)).data = none :=
        Option.map_eq_none'.mp h
      exact Option.map_eq_none'.mpr h'

set_option maxRecDepth 8000 in
/-- Witness for `basicExtract_first_match_only` on the sentence
`"We reduced emissions by 25.5% in 2023"`: the percentage field is the
leftmost percent match `25.5`, and the year `2023` lies within the 2020–2025
range. -/
theorem basicExtract_first_match_only_witness :
    (basicExtractClaimData "We reduced emissions by 25.5% in 2023").percentage
      = some (51/2) ∧
    (∃ k, k ≤ (pyStrip (pyLower "We reduced emissions by 25.5% in 2023")).data.length ∧
      matchPercentAt
        ((pyStrip (pyLower "We reduced emissions by 25.5% in 2023")).data.drop k)
        = some (51/2) ∧
      ∀ j < k, matchPercentAt
        ((pyStrip (pyLower "We reduced emissions by 25.5% in 2023")).data.drop j) = none) ∧
    (basicExtractClaimData "We reduced emissions by 25.5% in 2023").year = some 2023 ∧
    (2020 ≤ (2023 : Int) ∧ (2023 : Int) ≤ 2025) := by
  have h2 : ratOfDigits ['2', '5'] ['5'] = 51/2 := by
    rw [ratOfDigits, show digitsToNat ['2', '5'] = 25 from by decide,
      show digitsToNat ['5'] = 5 from by decide]
    norm_num
  have h1 : (basicExtractClaimData "We reduced emissions by 25.5% in 2023").percentage
      = some (51/2) := by
    rw [show (basicExtractClaimData "We reduced emissions by 25.5% in 2023").percentage
        = some (ratOfDigits ['2', '5'] ['5']) from rfl, h2]
  exact ⟨h1,
    (basicExtract_first_match_only "We reduced emissions by 25.5% in 2023").2.2.2.2.2.1
      (51/2) h1,
    by decide,
    (basicExtract_first_match_only
        "We reduced emissions by 25.5% in 2023").2.2.2.2.2.2.2.2.2.2.2.1
      2023 (by decide)⟩

/- ## Verification verdicts, Gemini response parsing (C10) and `verify_claim` (C4)

`json.loads` is external; it is modelled as a parameter `loads : String →
Option Json` (`none` = `json.JSONDecodeError`, the only exception it raises
on string input).  The Gemini text-generation call is a parameter that may
raise.  Python exceptions that `_parse_gemini_verification_response` does
*not* catch (its handler covers only `json.JSONDecodeError` and
`ValueError`) are modelled as `Except.error`. -/

/-- A JSON value, as produced by `json.loads`. -/
inductive Json where
  | null
  | bool (b : Bool)
  | num (q : ℚ)
  | str (s : String)
  | arr (elems : List Json)
  | obj (fields : List (String × Json))

/-- The Python exception kinds relevant to the parse function's handler. -/
inductive PyError where
  | valueError
  | typeError
  | attributeError
deriving DecidableEq

/-- The `VerificationResult` dataclass. -/
structure VerificationResult where
  status : String
  confidence : ℚ
  reasoning : String
  csv_match : Bool
  tolerance_check : Bool
  matched_data : Option Json := none

/-- `dict.get(key, default)` on a parsed JSON object. -/
def jsonGetD (fields : List (String × Json)) (key : String) (dflt : Json) : Json :=
  match fields.find? (fun p => p.1 == key) with
  | some p => p.2
  | none => dflt

/-- `dict.get(key)` (default `None`) for the `matched_data` field; a JSON
`null` and an absent key both denote Python `None`. -/
def jsonGetOpt (fields : List (String × Json)) (key : String) : Option Json :=
  match fields.find? (fun p => p.1 == key) with
  | some p => match p.2 with | .null => none | v => some v
  | none => none

/-- Python stores `result_data.get('status', 'unverified')` into the
dataclass unchecked; a non-string value flows through as an object that
compares unequal to every status literal downstream.  We render such a value
to a marker string no status comparison matches, preserving exactly that
observable behaviour. -/
def jsonFieldString (fields : List (String × Json)) (key : String) (dflt : String) :
    String :=
  match jsonGetD fields key (.str dflt) with
  | .str s => s
  | _ => "<non-string-json-value>"

/-- Python `bool(x)` truthiness on a JSON value. -/
def pyBool : Json → Bool
  | .null => false
  | .bool b => b
  | .num q => q != 0
  | .str s => s != ""
  | .arr xs => !xs.isEmpty
  | .obj fs => !fs.isEmpty

/-- A decimal literal accepted by Python `float(str)` (sign, digits, optional
fraction, surrounding whitespace), as an exact rational; `none` when
`float()` would raise `ValueError`. -/
def strToRat? (s : String) : Option ℚ :=
  let t := pyStripChars s.data
  let signRest : ℚ × List Char :=
    match t with
    | '-' :: r => (-1, r)
    | '+' :: r => (1, r)
    | _ => (1, t)
  let ds := signRest.2.takeWhile Char.isDigit
  match signRest.2.dropWhile Char.isDigit with
  | [] => if ds.isEmpty then none else some (signRest.1 * digitsToNat ds)
  | '.' :: fr =>
    let fs := fr.takeWhile Char.isDigit
    if (fr.dropWhile Char.isDigit).isEmpty && !(ds.isEmpty && fs.isEmpty) then
      some (signRest.1 * ratOfDigits ds fs)
    else none
  | _ => none

/-- Python `float(x)` on a JSON value: numbers and booleans convert, numeric
strings parse (`ValueError` otherwise), and `None`/lists/objects raise
`TypeError` — which the parse function's handler does not catch. -/
def pyFloat : Json → Except PyError ℚ
  | .num q => .ok q
  | .bool b => .ok (if b then 1 else 0)
  | .str s =>
    match strToRat? s with
    | some q => .ok q
    | none => .error .valueError
  | .null => .error .typeError
  | .arr _ => .error .typeError
  | .obj _ => .error .typeError

/-- Python `s.startswith(pat)` (character-wise initial-run test). -/
def charsPre : List Char → List Char → Bool
  | [], _ => true
  | _ :: _, [] => false
  | p :: ps, c :: cs => p == c && charsPre ps cs

/-- The defensive markdown-fence stripping in
`_parse_gemini_verification_response`: strip whitespace, drop a leading
`'''json` (7 characters) and a trailing `'''` (3 characters) when present. -/
def stripResponseText (responseText : String) : String :=
  let t0 := pyStrip responseText
  let t1 := if charsPre "```json".data t0.data then String.mk (t0.data.drop 7) else t0
  if charsPre "```".data.reverse t1.data.reverse then
    String.mk (t1.data.take (t1.data.length - 3))
  else t1

/-- The keyword-scan fallback inside the parse function's exception handler:
`verified`+`match` ⇒ verified/0.8, `questionable` or `partial` ⇒
questionable/0.5, else unverified/0.2; `csv_match` records whether the
company had reference rows; the reasoning echoes the first 200 characters of
the response. -/
def keywordVerificationFallback (responseText : String)
    (companyData : List RefRecord) : VerificationResult :=
  let lower := pyLower responseText
  let sc : String × ℚ :=
    if containsSub lower "verified" && containsSub lower "match" then ("verified", 4/5)
    else if containsSub lower "questionable" || containsSub lower "partial" then
      ("questionable", 1/2)
    else ("unverified", 1/5)
  { status := sc.1, confidence := sc.2,
    reasoning := "Gemini analysis: " ++ String.mk (responseText.data.take 200) ++ "...",
    csv_match := !companyData.isEmpty, tolerance_check := false,
    matched_data := none }

/-- `ESGVerifier._parse_gemini_verification_response`: strip fences, attempt
`json.loads`; on `JSONDecodeError` (or a `ValueError` from the confidence
conversion) fall back to the keyword scan; read the verdict fields with
defaults otherwise.  A response that parses as JSON but is not an object
raises `AttributeError` (no `.get` on the value), and a confidence value of
null/array/object type raises `TypeError`; neither is caught here. -/
def parseGeminiVerificationResponse (loads : String → Option Json)
    (responseText : String) (companyData : List RefRecord) :
    Except PyError VerificationResult :=
  let t := stripResponseText responseText
  match loads (pyStrip t) with
  | none => .ok (keywordVerificationFallback t companyData)
  | some j =>
    match j with
    | .obj fields =>
      match pyFloat (jsonGetD fields "confidence" (.num 0)) with
      | .ok conf =>
        .ok { status := jsonFieldString fields "status" "unverified",
              confidence := conf,
              reasoning := jsonFieldString fields "reasoning" "No reasoning provided",
              csv_match := pyBool (jsonGetD fields "csv_match" (.bool false)),
              tolerance_check := pyBool (jsonGetD fields "tolerance_check" (.bool false)),
              matched_data := jsonGetOpt fields "matched_data" }
      | .error .valueError => .ok (keywordVerificationFallback t companyData)
      | .error e => .error e
    | _ => .error .attributeError

/-- Counterexample to C10 as stated: the string `"[1, 2]"` parses as a JSON
array (`json.loads` succeeds), after which `result_data.get(...)` raises an
`AttributeError` that the handler — which catches only `JSONDecodeError` and
`ValueError` — lets escape: the parse function raises instead of returning a
verdict. -/
theorem parseGemini_nonobject_raises_counterexample :
    parseGeminiVerificationResponse
      (fun _ => some (Json.arr [Json.num 1, Json.num 2])) "[1, 2]" []
      = .error .attributeError := rfl

/-- C10 (amended): the parse function returns a verdict without raising
whenever the response is not parseable as JSON at all (falling back to the
keyword scan), and whenever it parses as a JSON *object* whose `confidence`
field converts under `float()` or fails with `ValueError` (again the keyword
fallback); but a response parsing as JSON that is not an object raises
`AttributeError`, and an object whose `confidence` is null/array/object
raises `TypeError` — those exceptions escape to the caller (`verify_claim`),
whose own handler then degrades to `_basic_verify_claim`. -/
theorem parseGemini_verdict_cases (loads : String → Option Json)
    (responseText : String) (companyData : List RefRecord) :
    (loads (pyStrip (stripResponseText responseText)) = none →
      parseGeminiVerificationResponse loads responseText companyData
        = .ok (keywordVerificationFallback (stripResponseText responseText)
            companyData)) ∧
    (∀ fields, loads (pyStrip (stripResponseText responseText)) = some (.obj fields) →
      pyFloat (jsonGetD fields "confidence" (.num 0)) ≠ .error .typeError →
      (parseGeminiVerificationResponse loads responseText companyData).isOk = true) ∧
    (∀ fields, loads (pyStrip (stripResponseText responseText)) = some (.obj fields) →
      pyFloat (jsonGetD fields "confidence" (.num 0)) = .error .typeError →
      parseGeminiVerificationResponse loads responseText companyData
        = .error .typeError) ∧
    (∀ j, loads (pyStrip (stripResponseText responseText)) = some j →
      (∀ fields, j ≠ .obj fields) →
      parseGeminiVerificationResponse loads responseText companyData
        = .error .attributeError) := by
  have pyFloat_no_attr : ∀ j : Json, pyFloat j ≠ .error .attributeError := by
    intro j
    cases j with
    | str s =>
      unfold pyFloat
      cases hs : strToRat? s <;> simp [hs]
    | null => simp [pyFloat]
    | bool b => simp [pyFloat]
    | num q => simp [pyFloat]
    | arr xs => simp [pyFloat]
    | obj fs => simp [pyFloat]
  refine ⟨?_, ?_, ?_, ?_⟩
  · intro h
    simp [parseGeminiVerificationResponse, h]
  · intro fields h hconf
    simp only [parseGeminiVerificationResponse, h]
    cases hp : pyFloat (jsonGetD fields "confidence" (.num 0)) with
    | ok conf => simp only [hp]; rfl
    | error e =>
      cases e with
      | valueError => simp only [hp]; rfl
      | typeError => exact absurd hp hconf
      | attributeError => exact absurd hp (pyFloat_no_attr _)
  · intro fields h hconf
    simp only [parseGeminiVerificationResponse, h]
    rw [hconf]
  · intro j h hnot
    cases j with
    | obj fields => exact absurd rfl (hnot fields)
    | null => simp [parseGeminiVerificationResponse, h]
    | bool b => simp [parseGeminiVerificationResponse, h]
    | num q => simp [parseGeminiVerificationResponse, h]
    | str s => simp [parseGeminiVerificationResponse, h]
    | arr xs => simp [parseGeminiVerificationResponse, h]

/-- Witness for `parseGemini_verdict_cases`: a free-text (non-JSON) response
falls back to the keyword scan and yields a verdict. -/
theorem parseGemini_verdict_cases_witness :
    ((fun _ : String => (none : Option Json))
        (pyStrip (stripResponseText "the claim is verified and matches")) = none) ∧
    parseGeminiVerificationResponse (fun _ => none)
        "the claim is verified and matches" []
      = .ok (keywordVerificationFallback
          (stripResponseText "the claim is verified and matches") []) :=
  ⟨rfl, (parseGemini_verdict_cases (fun _ => none)
      "the claim is verified and matches" []).1 rfl⟩

/- ## C4: `verify_claim` degradation order -/

/-- Render an optional numeric cell for the prompt's data digest (missing
values print as `nan`, mirroring a coerced missing cell; the exact numeral
formatting of the interpolation is immaterial to every property proved
here). -/
def cellStr : Option ℚ → String
  | some q => toString q
  | none => "nan"

/-- One line of the data digest in `_create_verification_prompt`:
`- {metric}: {value} {unit} in {year} (Source: {source})`. -/
def formatDataRow (r : RefRecord) : String :=
  "- " ++ r.metric ++ ": " ++ cellStr r.value ++ " " ++ r.unit ++ " in " ++
    cellStr r.year ++ " (Source: " ++ r.source ++ ")"

/-- `ESGVerifier._create_verification_prompt`: the claim's extracted fields
and at most the first 10 reference rows, embedded into the fixed instruction
text asking for a JSON verdict within a 10–15% tolerance. -/
def createVerificationPrompt (claimData : ExtractedClaimData)
    (companyName : String) (companyData : List RefRecord) : String :=
  let dataText := "\n".intercalate ((companyData.map formatDataRow).take 10)
  "You are an ESG claim verification expert. Analyze this environmental claim " ++
  "against verified data.\n\nCLAIM TO VERIFY:\nCompany: " ++ companyName ++
  "\nClaim Text: \"" ++ claimData.raw_text ++ "\"\nExtracted Data:\n- Metric: " ++
  (claimData.metric.getD "None") ++ "\n- Value: " ++ cellStr claimData.value ++
  "\n- Unit: " ++ (claimData.unit.getD "None") ++ "\n- Year: " ++
  (match claimData.year with | some y => toString y | none => "None") ++
  "\n- Percentage: " ++ cellStr claimData.percentage ++
  "\n\nVERIFIED DATA FROM DATABASE:\n" ++ dataText ++
  "\n\nTASK:\nAnalyze if the claim is supported by the verified data. Consider:\n" ++
  "1. Does the company have data for the claimed metric?\n" ++
  "2. Are the values reasonably close (within 10-15% tolerance)?\n" ++
  "3. Do the years match or are close?\n4. Are the units compatible?\n\n" ++
  "Return a JSON object with:\n- status: \"verified\" (claim matches data), " ++
  "\"questionable\" (partial match/discrepancy), or \"unverified\" (no supporting data)\n" ++
  "- confidence: float between 0.0-1.0\n- reasoning: detailed explanation of your analysis\n" ++
  "- csv_match: boolean if relevant data was found\n" ++
  "- tolerance_check: boolean if values are within acceptable range\n" ++
  "- matched_data: the specific data point that best matches (if any)\n\n" ++
  "Only return the JSON object, no other text."

/-- A reference row rendered as the dictionary `row.to_dict()` (CSV column
order). -/
def refRecordToJson (r : RefRecord) : Json :=
  .obj [("company", .str r.company), ("year", match r.year with
          | some q => .num q | none => .null),
        ("metric", .str r.metric), ("value", match r.value with
          | some q => .num q | none => .null),
        ("unit", .str r.unit), ("source", .str r.source)]

set_option linter.unusedVariables false in
/-- `ESGVerifier._basic_verify_claim`: lookup the company; no rows ⇒
unverified / 0.0 / no csv match; rows present ⇒ questionable / 0.5 with the
"detailed verification unavailable" reasoning and the first row attached.
(As in the source, the claim data itself is not consulted.) -/
def basicVerifyClaim (data : List RefRecord) (claimData : ExtractedClaimData)
    (companyName : String) : VerificationResult :=
  let companyData := getCompanyDataForVerification data companyName
  if companyData.isEmpty then
    { status := "unverified", confidence := 0,
      reasoning := "No data found for company '" ++ companyName ++ "'",
      csv_match := false, tolerance_check := false, matched_data := none }
  else
    { status := "questionable", confidence := 1/2,
      reasoning := "Found data for " ++ companyName ++
        " but detailed verification unavailable (Gemini AI not configured)",
      csv_match := true, tolerance_check := false,
      matched_data := (companyData.head?).map refRecordToJson }

/-- `ESGVerifier.verify_claim`: with no Gemini model configured, degrade
straight to `_basic_verify_claim`.  Otherwise look up the company (empty ⇒
the unverified short-circuit), send the verification prompt to Gemini (a
call that may raise), parse the response — any exception from the generation
call or from the parse (e.g. `AttributeError`/`TypeError`, see C10) is
caught by this function's handler, which degrades to `_basic_verify_claim`. -/
def verifyClaim (gemini : Option (String → Except String String))
    (loads : String → Option Json) (data : List RefRecord)
    (claimData : ExtractedClaimData) (companyName : String) : VerificationResult :=
  match gemini with
  | none => basicVerifyClaim data claimData companyName
  | some generate =>
    let companyData := getCompanyDataForVerification data companyName
    if companyData.isEmpty then
      { status := "unverified", confidence := 0,
        reasoning := "No data found for company '" ++ companyName ++ "' in dataset",
        csv_match := false, tolerance_check := false, matched_data := none }
    else
      match generate (createVerificationPrompt claimData companyName companyData) with
      | .error _ => basicVerifyClaim data claimData companyName
      | .ok responseText =>
        match parseGeminiVerificationResponse loads responseText companyData with
        | .ok verdict => verdict
        | .error _ => basicVerifyClaim data claimData companyName

/-- C4: the fixed degradation order of `verify_claim`.  (1) Whatever the
Gemini configuration, an empty company lookup short-circuits to status
`unverified`, confidence `0.0`, `csv_match = false`.  (2) When the reasoning
service was never configured (`gemini = none`) and reference rows exist, the
verdict is `questionable` with confidence `0.5`, `csv_match = true`,
`tolerance_check = false`, the first row attached, and a reasoning string
containing "detailed verification unavailable".  The embedding returns a
plain `VerificationResult` — a verdict is always produced, never an
unhandled failure. -/
theorem verifyClaim_degradation (gemini : Option (String → Except String String))
    (loads : String → Option Json) (data : List RefRecord)
    (claimData : ExtractedClaimData) (companyName : String) :
    (getCompanyDataForVerification data companyName = [] →
      (verifyClaim gemini loads data claimData companyName).status = "unverified" ∧
      (verifyClaim gemini loads data claimData companyName).confidence = 0 ∧
      (verifyClaim gemini loads data claimData companyName).csv_match = false) ∧
    (gemini = none → getCompanyDataForVerification data companyName ≠ [] →
      (verifyClaim none loads data claimData companyName).status = "questionable" ∧
      (verifyClaim none loads data claimData companyName).confidence = 1/2 ∧
      (verifyClaim none loads data claimData companyName).csv_match = true ∧
      (verifyClaim none loads data claimData companyName).tolerance_check = false ∧
      (verifyClaim none loads data claimData companyName).matched_data
        = ((getCompanyDataForVerification data companyName).head?).map refRecordToJson ∧
      containsSub (verifyClaim none loads data claimData companyName).reasoning
        "detailed verification unavailable" = true) := by
  constructor
  · intro hemp
    have hie : (getCompanyDataForVerification data companyName).isEmpty = true := by
      rw [hemp]; rfl
    cases gemini with
    | none =>
      simp only [verifyClaim, basicVerifyClaim, hie, if_true]
      exact ⟨by trivial, by trivial, by trivial⟩
    | some generate =>
      simp only [verifyClaim, hie, if_true]
      exact ⟨by trivial, by trivial, by trivial⟩
  · intro _ hne
    have hie : (getCompanyDataForVerification data companyName).isEmpty = false :=
      List.isEmpty_eq_false.mpr hne
    simp only [verifyClaim, basicVerifyClaim, hie, Bool.false_eq_true, if_false]
    refine ⟨by trivial, by trivial, by trivial, by trivial, by trivial, ?_⟩
    rw [containsSub, decide_eq_true_eq]
    refine ⟨("Found data for " ++ companyName ++ " but ").data,
      " (Gemini AI not configured)".data, ?_⟩
    simp only [String.data_append, List.append_assoc]
    rfl

/-- Witness for `verifyClaim_degradation`: tier 1 at an empty dataset, tier
2 for an unconfigured reasoning service with an exact company match. -/
theorem verifyClaim_degradation_witness :
    (getCompanyDataForVerification [] "Apple" = [] ∧
      (verifyClaim none (fun _ => none) [] ⟨none, none, none, none, none,
          "We reduced emissions by 25% in 2023"⟩ "Apple").status = "unverified" ∧
      (verifyClaim none (fun _ => none) [] ⟨none, none, none, none, none,
          "We reduced emissions by 25% in 2023"⟩ "Apple").confidence = 0 ∧
      (verifyClaim none (fun _ => none) [] ⟨none, none, none, none, none,
          "We reduced emissions by 25% in 2023"⟩ "Apple").csv_match = false) ∧
    (getCompanyDataForVerification [acmeRow, globexRow] "Acme Corp" ≠ [] ∧
      (verifyClaim none (fun _ => none) [acmeRow, globexRow] ⟨none, none, none,
          none, none, ""⟩ "Acme Corp").status = "questionable" ∧
      (verifyClaim none (fun _ => none) [acmeRow, globexRow] ⟨none, none, none,
          none, none, ""⟩ "Acme Corp").confidence = 1/2 ∧
      (verifyClaim none (fun _ => none) [acmeRow, globexRow] ⟨none, none, none,
          none, none, ""⟩ "Acme Corp").csv_match = true) := by
  constructor
  · refine ⟨rfl, ?_⟩
    exact (verifyClaim_degradation none (fun _ => none) []
      ⟨none, none, none, none, none, "We reduced emissions by 25% in 2023"⟩
      "Apple").1 rfl
  · have h := (verifyClaim_degradation none (fun _ => none) [acmeRow, globexRow]
      ⟨none, none, none, none, none, ""⟩ "Acme Corp").2 rfl (by decide)
    exact ⟨by decide, h.1, h.2.1, h.2.2.1⟩

/- ## C2: claim accounting through steps 4 and 5 (`nlp_processor.py`) -/

/-- The claim record built in step 4 (`_process_detected_claims`): 1-based
sequential id from the position in the filtered list, the claim text, its
classification confidence, and the extracted data. -/
structure ProcessedClaim where
  id : Nat
  text : String
  confidence : ℚ
  extracted_data : ExtractedClaimData

/-- The claim record after step 5 (`_verify_claims`): the step-4 record
enriched with the verification outcome. -/
structure VerifiedClaim where
  id : Nat
  text : String
  confidence : ℚ
  extracted_data : ExtractedClaimData
  verification_status : String
  verification_confidence : ℚ
  csv_match : Bool
  tolerance_check : Bool
  reasoning : String
  matched_data : Option Json := none

/-- The loop body of `_process_detected_claims` for one enumerated claim:
extract structured data (a call that may raise); on failure the claim is
skipped (`continue`) — it produces no record. -/
def processOne (extract : String → Except String ExtractedClaimData)
    (ic : Nat × ClassificationResult ℚ) : Option ProcessedClaim :=
  match extract ic.2.text with
  | .ok extracted =>
    some { id := ic.1 + 1, text := ic.2.text, confidence := ic.2.confidence,
           extracted_data := extracted }
  | .error _ => none

/-- `NLPProcessor._process_detected_claims`: filter by the processor's
confidence threshold, then build one record per claim whose fact extraction
succeeds; a claim whose extraction raises is logged as a warning and
dropped. -/
def processDetectedClaims (extract : String → Except String ExtractedClaimData)
    (classificationResults : List (ClassificationResult ℚ))
    (confidenceThreshold : ℚ) : List ProcessedClaim :=
  ((filterClaims CONFIDENCE_THRESHOLD classificationResults
    (some confidenceThreshold)).enum).filterMap (processOne extract)

/-- The loop body of `_verify_claims` for one claim: on success, enrich the
record with the verdict; on an exception, append the degraded record (status
`unverified`, confidence `0.0`, reasoning `"Verification failed: …"`). -/
def verifyOne (verify : ExtractedClaimData → String → Except String VerificationResult)
    (companyName : String) (c : ProcessedClaim) : VerifiedClaim :=
  match verify c.extracted_data companyName with
  | .ok v =>
    { id := c.id, text := c.text, confidence := c.confidence,
      extracted_data := c.extracted_data,
      verification_status := v.status, verification_confidence := v.confidence,
      csv_match := v.csv_match, tolerance_check := v.tolerance_check,
      reasoning := v.reasoning, matched_data := v.matched_data }
  | .error e =>
    { id := c.id, text := c.text, confidence := c.confidence,
      extracted_data := c.extracted_data,
      verification_status := "unverified", verification_confidence := 0,
      csv_match := false, tolerance_check := false,
      reasoning := "Verification failed: " ++ e, matched_data := none }

/-- `NLPProcessor._verify_claims`: verify each processed claim in order; a
claim whose verification raises is *not* dropped but degraded. -/
def verifyClaimsStage
    (verify : ExtractedClaimData → String → Except String VerificationResult)
    (claims : List ProcessedClaim) (companyName : String) : List VerifiedClaim :=
  claims.map (verifyOne verify companyName)

theorem verifyOne_id (verify : ExtractedClaimData → String → Except String VerificationResult)
    (companyName : String) (c : ProcessedClaim) :
    (verifyOne verify companyName c).id = c.id := by
  unfold verifyOne
  split <;> rfl

theorem verifyOne_text (verify : ExtractedClaimData → String → Except String VerificationResult)
    (companyName : String) (c : ProcessedClaim) :
    (verifyOne verify companyName c).text = c.text := by
  unfold verifyOne
  split <;> rfl

theorem verifyOne_error (verify : ExtractedClaimData → String → Except String VerificationResult)
    (companyName : String) (c : ProcessedClaim) (e : String)
    (h : verify c.extracted_data companyName = .error e) :
    (verifyOne verify companyName c).verification_status = "unverified" ∧
    (verifyOne verify companyName c).verification_confidence = 0 ∧
    (verifyOne verify companyName c).reasoning = "Verification failed: " ++ e := by
  unfold verifyOne
  rw [h]
  exact ⟨rfl, rfl, rfl⟩

/-- A classification result that passes the default confidence filter. -/
def cexResult : ClassificationResult ℚ :=
  { text := "We cut emissions by 30% in 2023", prediction := "Claim",
    confidence := 9/10, is_claim := true, raw_scores := [1/10, 9/10] }

/-- Counterexample to C2 as stated: one claim passes the confidence filter,
its fact extraction raises, and the final claim list is empty — the claim
was dropped, not degraded. -/
theorem claimAccounting_drop_counterexample :
    (filterClaims CONFIDENCE_THRESHOLD [cexResult] (some CONFIDENCE_THRESHOLD)).length
      = 1 ∧
    verifyClaimsStage (fun _ _ => .ok
        { status := "verified", confidence := 1, reasoning := "ok",
          csv_match := true, tolerance_check := true })
      (processDetectedClaims (fun _ => .error "Gemini extraction crashed")
        [cexResult] CONFIDENCE_THRESHOLD) "Acme"
      = [] := by
  have hle : decide (CONFIDENCE_THRESHOLD ≤ cexResult.confidence) = true :=
    decide_eq_true (by norm_num [CONFIDENCE_THRESHOLD, cexResult])
  have hfil : filterClaims CONFIDENCE_THRESHOLD [cexResult] (some CONFIDENCE_THRESHOLD)
      = [cexResult] := by
    rw [filterClaims]
    simp [List.filter_cons, hle, show cexResult.is_claim = true from rfl]
  constructor
  · rw [hfil]
    rfl
  · rw [verifyClaimsStage, processDetectedClaims, hfil]
    rfl

theorem processAllOk (extract : String → Except String ExtractedClaimData) :
    ∀ (l : List (ClassificationResult ℚ)) (n : Nat),
      (∀ c ∈ l, (extract c.text).isOk = true) →
      ((l.enumFrom n).filterMap (processOne extract)).length = l.length ∧
      ∀ i (hi : i < l.length)
          (hi' : i < ((l.enumFrom n).filterMap (processOne extract)).length),
        (((l.enumFrom n).filterMap (processOne extract)).get ⟨i, hi'⟩).text
            = (l.get ⟨i, hi⟩).text ∧
        (((l.enumFrom n).filterMap (processOne extract)).get ⟨i, hi'⟩).id
            = n + i + 1 := by
  intro l
  induction l with
  | nil =>
    intro n _
    exact ⟨rfl, fun i hi => absurd hi (Nat.not_lt_zero _)⟩
  | cons c cs ih =>
    intro n hok
    have hc : (extract c.text).isOk = true := hok c (List.mem_cons_self _ _)
    obtain ⟨d, hd⟩ : ∃ d, extract c.text = .ok d := by
      cases hx : extract c.text with
      | ok d => exact ⟨d, rfl⟩
      | error e => rw [hx] at hc; cases hc
    have hrec := ih (n + 1) (fun x hx => hok x (List.mem_cons_of_mem _ hx))
    have hpo : processOne extract (n, c)
        = some { id := n + 1, text := c.text, confidence := c.confidence,
                 extracted_data := d } := by
      simp [processOne, hd]
    have hcons : ((c :: cs).enumFrom n).filterMap (processOne extract)
        = { id := n + 1, text := c.text, confidence := c.confidence,
            extracted_data := d : ProcessedClaim } ::
          ((cs.enumFrom (n + 1)).filterMap (processOne extract)) := by
      rw [List.enumFrom_cons, List.filterMap_cons, hpo]
    rw [hcons]
    constructor
    · simpa using hrec.1
    · intro i hi hi'
      cases i with
      | zero => exact ⟨rfl, rfl⟩
      | succ j =>
        have hj : j < cs.length := by simpa using hi
        have hj' : j < ((cs.enumFrom (n + 1)).filterMap (processOne extract)).length := by
          simpa using hi'
        have := hrec.2 j hj hj'
        refine ⟨by simpa [List.get_eq_getElem] using this.1, ?_⟩
        have h2 := this.2
        simp only [List.get_eq_getElem] at h2 ⊢
        simp only [List.getElem_cons_succ]
        omega

/-- C2 (amended): the verification stage (step 5) preserves claims one-to-one
— the final list has exactly one entry per processed claim, in order, with
ids and texts preserved, and a claim whose verification raises is degraded to
status `unverified` / confidence `0.0` with a `"Verification failed: …"`
reasoning rather than dropped.  The extraction stage (step 4), however,
drops a claim whose fact extraction raises
(`claimAccounting_drop_counterexample`); only when extraction succeeds for
every confidence-filtered claim does the final list account one-to-one for
the filtered claims, with sequential 1-based ids. -/
theorem claimAccounting
    (extract : String → Except String ExtractedClaimData)
    (verify : ExtractedClaimData → String → Except String VerificationResult)
    (classificationResults : List (ClassificationResult ℚ))
    (threshold : ℚ) (companyName : String) :
    (verifyClaimsStage verify
        (processDetectedClaims extract classificationResults threshold)
        companyName).length
      = (processDetectedClaims extract classificationResults threshold).length ∧
    (∀ i (hi : i < (processDetectedClaims extract classificationResults threshold).length)
        (hi' : i < (verifyClaimsStage verify
          (processDetectedClaims extract classificationResults threshold)
          companyName).length),
      ((verifyClaimsStage verify
          (processDetectedClaims extract classificationResults threshold)
          companyName).get ⟨i, hi'⟩).id
        = ((processDetectedClaims extract classificationResults threshold).get
            ⟨i, hi⟩).id ∧
      ((verifyClaimsStage verify
          (processDetectedClaims extract classificationResults threshold)
          companyName).get ⟨i, hi'⟩).text
        = ((processDetectedClaims extract classificationResults threshold).get
            ⟨i, hi⟩).text ∧
      (∀ e, verify ((processDetectedClaims extract classificationResults
            threshold).get ⟨i, hi⟩).extracted_data companyName = .error e →
        ((verifyClaimsStage verify
            (processDetectedClaims extract classificationResults threshold)
            companyName).get ⟨i, hi'⟩).verification_status = "unverified" ∧
        ((verifyClaimsStage verify
            (processDetectedClaims extract classificationResults threshold)
            companyName).get ⟨i, hi'⟩).verification_confidence = 0 ∧
        ((verifyClaimsStage verify
            (processDetectedClaims extract classificationResults threshold)
            companyName).get ⟨i, hi'⟩).reasoning = "Verification failed: " ++ e)) ∧
    ((∀ c ∈ filterClaims CONFIDENCE_THRESHOLD classificationResults (some threshold),
        (extract c.text).isOk = true) →
      (processDetectedClaims extract classificationResults threshold).length
        = (filterClaims CONFIDENCE_THRESHOLD classificationResults
            (some threshold)).length ∧
      ∀ i (hi : i < (filterClaims CONFIDENCE_THRESHOLD classificationResults
            (some threshold)).length)
          (hi' : i < (processDetectedClaims extract classificationResults
            threshold).length),
        ((processDetectedClaims extract classificationResults threshold).get
            ⟨i, hi'⟩).text
          = ((filterClaims CONFIDENCE_THRESHOLD classificationResults
              (some threshold)).get ⟨i, hi⟩).text ∧
        ((processDetectedClaims extract classificationResults threshold).get
            ⟨i, hi'⟩).id = i + 1) := by
  refine ⟨List.length_map _ _, ?_, ?_⟩
  · intro i hi hi'
    have hmap : (verifyClaimsStage verify
        (processDetectedClaims extract classificationResults threshold)
        companyName).get ⟨i, hi'⟩
        = verifyOne verify companyName
            ((processDetectedClaims extract classificationResults threshold).get
              ⟨i, hi⟩) := by
      simp [verifyClaimsStage, List.get_eq_getElem, List.getElem_map]
    rw [hmap]
    exact ⟨verifyOne_id _ _ _, verifyOne_text _ _ _,
      fun e he => verifyOne_error _ _ _ e he⟩
  · intro hok
    have h := processAllOk extract
      (filterClaims CONFIDENCE_THRESHOLD classificationResults (some threshold))
      0 hok
    refine ⟨h.1, ?_⟩
    intro i hi hi'
    have hthis := h.2 i hi hi'
    refine ⟨hthis.1, ?_⟩
    have h2 : ((processDetectedClaims extract classificationResults threshold).get
        ⟨i, hi'⟩).id = 0 + i + 1 := hthis.2
    omega

/-- Witness for `claimAccounting`: a verification step that always raises
degrades the single processed claim instead of dropping it, and an
always-succeeding extraction keeps the 1:1 accounting with the filtered
list. -/
theorem claimAccounting_witness :
    (0 : Nat) < (processDetectedClaims (fun t => .ok { raw_text := t })
        [cexResult] CONFIDENCE_THRESHOLD).length ∧
    ((fun (_ : ExtractedClaimData) (_ : String) =>
        (Except.error "Gemini verification crashed" :
          Except String VerificationResult)) { raw_text := cexResult.text }
        "Acme").isOk = false ∧
    (∀ c ∈ filterClaims CONFIDENCE_THRESHOLD [cexResult] (some CONFIDENCE_THRESHOLD),
      ((fun t => (Except.ok { raw_text := t } :
          Except String ExtractedClaimData)) c.text).isOk = true) ∧
    ((verifyClaimsStage
        (fun _ _ => .error "Gemini verification crashed")
        (processDetectedClaims (fun t => .ok { raw_text := t })
          [cexResult] CONFIDENCE_THRESHOLD) "Acme").length
      = (processDetectedClaims (fun t => .ok { raw_text := t })
          [cexResult] CONFIDENCE_THRESHOLD).length) ∧
    ((processDetectedClaims (fun t => .ok { raw_text := t })
        [cexResult] CONFIDENCE_THRESHOLD).length
      = (filterClaims CONFIDENCE_THRESHOLD [cexResult]
          (some CONFIDENCE_THRESHOLD)).length) := by
  have hle : decide (CONFIDENCE_THRESHOLD ≤ cexResult.confidence) = true :=
    decide_eq_true (by norm_num [CONFIDENCE_THRESHOLD, cexResult])
  have hfil : filterClaims CONFIDENCE_THRESHOLD [cexResult] (some CONFIDENCE_THRESHOLD)
      = [cexResult] := by
    rw [filterClaims]
    simp [List.filter_cons, hle, show cexResult.is_claim = true from rfl]
  have hlen : (processDetectedClaims (fun t => .ok { raw_text := t })
      [cexResult] CONFIDENCE_THRESHOLD).length = 1 := by
    rw [processDetectedClaims, hfil]
    rfl
  refine ⟨by rw [hlen]; norm_num, rfl, ?_, ?_, ?_⟩
  · intro c _
    rfl
  · exact (claimAccounting (fun t => .ok { raw_text := t })
      (fun _ _ => .error "Gemini verification crashed") [cexResult]
      CONFIDENCE_THRESHOLD "Acme").1
  · exact ((claimAccounting (fun t => .ok { raw_text := t })
      (fun _ _ => .error "Gemini verification crashed") [cexResult]
      CONFIDENCE_THRESHOLD "Acme").2.2 (fun c _ => rfl)).1

/- ## C7: summary statistics (`results_formatter.py`) -/

/-- The summary-statistics record computed by
`ResultsFormatter._calculate_summary_statistics`.  (In the Python zero-claims
branch the two `*_rate` keys other than `verification_rate` and the
`confidence_distribution` key are absent from the returned dict; here every
field exists and the absent rates are `0`.) -/
structure SummaryStatistics where
  total_claims : Nat
  verified : Nat
  questionable : Nat
  unverified : Nat
  verification_rate : ℚ
  questionable_rate : ℚ
  unverified_rate : ℚ
  avg_classification_confidence : ℚ
  avg_verification_confidence : ℚ
  high_confidence_claims : Nat
  low_confidence_claims : Nat

/-- `ResultsFormatter._calculate_summary_statistics`: an explicit zero branch
avoids division by zero; otherwise counts by status string, exact rates, mean
confidences, and high/low confidence counts at thresholds 0.8 / 0.3. -/
def calculateSummaryStatistics (verifiedClaims : List VerifiedClaim) :
    SummaryStatistics :=
  let totalClaims := verifiedClaims.length
  if totalClaims = 0 then
    { total_claims := 0, verified := 0, questionable := 0, unverified := 0,
      verification_rate := 0, questionable_rate := 0, unverified_rate := 0,
      avg_classification_confidence := 0, avg_verification_confidence := 0,
      high_confidence_claims := 0, low_confidence_claims := 0 }
  else
    let verifiedCount := verifiedClaims.countP
      (fun c => c.verification_status == "verified")
    let questionableCount := verifiedClaims.countP
      (fun c => c.verification_status == "questionable")
    let unverifiedCount := verifiedClaims.countP
      (fun c => c.verification_status == "unverified")
    { total_claims := totalClaims,
      verified := verifiedCount,
      questionable := questionableCount,
      unverified := unverifiedCount,
      verification_rate := (verifiedCount : ℚ) / (totalClaims : ℚ),
      questionable_rate := (questionableCount : ℚ) / (totalClaims : ℚ),
      unverified_rate := (unverifiedCount : ℚ) / (totalClaims : ℚ),
      avg_classification_confidence :=
        (verifiedClaims.map (·.confidence)).sum / (totalClaims : ℚ),
      avg_verification_confidence :=
        (verifiedClaims.map (·.verification_confidence)).sum / (totalClaims : ℚ),
      high_confidence_claims := (verifiedClaims.map (·.confidence)).countP
        (fun c => decide ((8 : ℚ)/10 ≤ c)),
      low_confidence_claims := (verifiedClaims.map (·.confidence)).countP
        (fun c => decide (c ≤ (3 : ℚ)/10)) }

theorem statusPartition (claims : List VerifiedClaim)
    (h : ∀ c ∈ claims, c.verification_status = "verified" ∨
      c.verification_status = "questionable" ∨
      c.verification_status = "unverified") :
    claims.countP (fun c => c.verification_status == "verified") +
    claims.countP (fun c => c.verification_status == "questionable") +
    claims.countP (fun c => c.verification_status == "unverified")
      = claims.length := by
  induction claims with
  | nil => rfl
  | cons c cs ih =>
    have hcs := ih (fun x hx => h x (List.mem_cons_of_mem _ hx))
    have hc := h c (List.mem_cons_self _ _)
    rcases hc with h1 | h1 | h1 <;>
      simp [List.countP_cons, h1] <;> omega

/-- C7: for every final claim list (whose statuses come from the data
model's trichotomy), `verified + questionable + unverified = total_claims`,
`verification_rate = verified / total_claims` exactly, and a zero-length
list yields rate `0.0` through the explicit zero branch rather than a
division error. -/
theorem summaryStatistics_invariant (claims : List VerifiedClaim)
    (h : ∀ c ∈ claims, c.verification_status = "verified" ∨
      c.verification_status = "questionable" ∨
      c.verification_status = "unverified") :
    (calculateSummaryStatistics claims).verified +
      (calculateSummaryStatistics claims).questionable +
      (calculateSummaryStatistics claims).unverified
        = (calculateSummaryStatistics claims).total_claims ∧
    (calculateSummaryStatistics claims).verification_rate
      = ((calculateSummaryStatistics claims).verified : ℚ) /
          ((calculateSummaryStatistics claims).total_claims : ℚ) ∧
    (claims.length = 0 → (calculateSummaryStatistics claims).verification_rate = 0) := by
  by_cases hn : claims.length = 0
  · have hcl : claims = [] := List.length_eq_zero.mp hn
    subst hcl
    refine ⟨rfl, ?_, fun _ => rfl⟩
    show (0 : ℚ) = ((0 : Nat) : ℚ) / ((0 : Nat) : ℚ)
    norm_num
  · have hstats : calculateSummaryStatistics claims
        = { total_claims := claims.length,
            verified := claims.countP (fun c => c.verification_status == "verified"),
            questionable := claims.countP
              (fun c => c.verification_status == "questionable"),
            unverified := claims.countP
              (fun c => c.verification_status == "unverified"),
            verification_rate := ((claims.countP
              (fun c => c.verification_status == "verified") : ℚ)) /
                ((claims.length : ℚ)),
            questionable_rate := ((claims.countP
              (fun c => c.verification_status == "questionable") : ℚ)) /
                ((claims.length : ℚ)),
            unverified_rate := ((claims.countP
              (fun c => c.verification_status == "unverified") : ℚ)) /
                ((claims.length : ℚ)),
            avg_classification_confidence :=
              (claims.map (·.confidence)).sum / ((claims.length : ℚ)),
            avg_verification_confidence :=
              (claims.map (·.verification_confidence)).sum / ((claims.length : ℚ)),
            high_confidence_claims := (claims.map (·.confidence)).countP
              (fun c => decide ((8 : ℚ)/10 ≤ c)),
            low_confidence_claims := (claims.map (·.confidence)).countP
              (fun c => decide (c ≤ (3 : ℚ)/10)) } := by
      rw [calculateSummaryStatistics]
      simp only [hn, if_false]
    rw [hstats]
    exact ⟨statusPartition claims h, rfl, fun h0 => absurd h0 hn⟩

/-- A sample verified claim record. -/
def vcVerified : VerifiedClaim :=
  { id := 1, text := "a", confidence := 1, extracted_data := {},
    verification_status := "verified", verification_confidence := 1,
    csv_match := true, tolerance_check := true, reasoning := "ok" }

/-- A sample unverified claim record. -/
def vcUnverified : VerifiedClaim :=
  { id := 2, text := "b", confidence := 0, extracted_data := {},
    verification_status := "unverified", verification_confidence := 0,
    csv_match := false, tolerance_check := false, reasoning := "no" }

/-- Witness for `summaryStatistics_invariant` at a concrete two-claim list
with one verified and one unverified claim. -/
theorem summaryStatistics_invariant_witness :
    (∀ c ∈ [vcVerified, vcUnverified],
      c.verification_status = "verified" ∨
      c.verification_status = "questionable" ∨
      c.verification_status = "unverified") ∧
    ((calculateSummaryStatistics [vcVerified, vcUnverified]).verified +
      (calculateSummaryStatistics [vcVerified, vcUnverified]).questionable +
      (calculateSummaryStatistics [vcVerified, vcUnverified]).unverified
        = (calculateSummaryStatistics [vcVerified, vcUnverified]).total_claims) := by
  have hmem : ∀ c ∈ [vcVerified, vcUnverified],
      c.verification_status = "verified" ∨
      c.verification_status = "questionable" ∨
      c.verification_status = "unverified" := by
    intro c hc
    rcases List.mem_cons.mp hc with h1 | h1
    · subst h1; left; rfl
    · rcases List.mem_cons.mp h1 with h2 | h2
      · subst h2; right; right; rfl
      · cases h2
  exact ⟨hmem, (summaryStatistics_invariant _ hmem).1⟩
